import Mathlib

/-! IPv6 extension header iterator (`pkg/tcpip/header/ipv6_extension_headers.go`)

A shallow embedding of the payload iterator and of the accessors of the headers it
returns.

* Bytes and header identifiers (`uint8`) are natural numbers; a payload
  (`buffer.VectorisedView`) is the list of its bytes in order.
* A Go function with a pointer receiver becomes a function that takes the iterator and
  returns the updated iterator next to its results.
* A call that does not return normally (a run-time panic) is `none`.
-/

namespace IPv6

/-! ## Identifiers and constants -/

/-- Header identifier of a Routing extension header (RFC 8200 section 4.4). -/
abbrev ipv6RoutingExtHdrIdentifier : Nat := 43

/-- Header identifier of a Fragment extension header (RFC 8200 section 4.5). -/
abbrev ipv6FragmentExtHdrIdentifier : Nat := 44

/-- Header identifier that signifies the end of an IPv6 payload (RFC 8200 section 4.7). -/
abbrev ipv6NoNextHeaderIdentifier : Nat := 59

/-- Index of the Segments Left field within an `IPv6RoutingExtHdr`. -/
abbrev ipv6RoutingExtHdrSegmentsLeftIdx : Nat := 1

/-- Offset of the Fragment Offset field within an `IPv6FragmentExtHdr`. -/
abbrev ipv6FragmentExtHdrFragmentOffsetOffset : Nat := 0

/-- Number of least significant bits to discard from the Fragment Offset. -/
abbrev ipv6FragmentExtHdrFragmentOffsetShift : Nat := 3

/-- Index of the flags field within an `IPv6FragmentExtHdr`. -/
abbrev ipv6FragmentExtHdrFlagsIdx : Nat := 1

/-- Mask of the More (M) flag within the flags field. -/
abbrev ipv6FragmentExtHdrMFlagMask : Nat := 1

/-- Offset of the Identification field within an `IPv6FragmentExtHdr`. -/
abbrev ipv6FragmentExtHdrIdentificationOffset : Nat := 2

/-- Unit size of an extension header's Length field. -/
abbrev ipv6ExtHdrLenBytesPerUnit : Nat := 8

/-- Number of bytes following the Length field that the Length field does not count. -/
abbrev ipv6ExtHdrLenBytesExcluded : Nat := 6

/-! ## Headers and their accessors -/

/-- The remainder of a payload, returned when the iterator stops parsing:
`IPv6RawPayloadHeader`. -/
structure IPv6RawPayloadHeader where
  Identifier : Nat
  Buf : List Nat
deriving DecidableEq

/-- The headers found in a payload (`IPv6PayloadHeader` and its three implementations);
`routing b` is `IPv6RoutingExtHdr(b)` and `fragment b` is `IPv6FragmentExtHdr(b)`. -/
inductive IPv6PayloadHeader where
  | raw (h : IPv6RawPayloadHeader)
  | routing (b : List Nat)
  | fragment (b : List Nat)
deriving DecidableEq

/-- The Go library function `binary.BigEndian.Uint16`: `uint16(b[1]) | uint16(b[0])<<8`,
a panic (`none`) on fewer than two bytes. -/
def bigEndianUint16 (b : List Nat) : Option Nat :=
  match b[1]?, b[0]? with
  | some b1, some b0 => some ((b1 ||| (b0 <<< 8)) % 2 ^ 16)
  | _, _ => none

/-- The Go library function `binary.BigEndian.Uint32`, a panic (`none`) on fewer than
four bytes. -/
def bigEndianUint32 (b : List Nat) : Option Nat :=
  match b[3]?, b[2]?, b[1]?, b[0]? with
  | some b3, some b2, some b1, some b0 =>
    some ((b3 ||| (b2 <<< 8) ||| (b1 <<< 16) ||| (b0 <<< 24)) % 2 ^ 32)
  | _, _, _, _ => none

/-- `IPv6RoutingExtHdr.SegmentsLeft`: `b[ipv6RoutingExtHdrSegmentsLeftIdx]`. -/
def SegmentsLeft (b : List Nat) : Option Nat :=
  b[ipv6RoutingExtHdrSegmentsLeftIdx]?

/-- `IPv6FragmentExtHdr.FragmentOffset`: the big-endian 16-bit value at the start of the
buffer, shifted right by three. -/
def FragmentOffset (b : List Nat) : Option Nat :=
  match bigEndianUint16 (b.drop ipv6FragmentExtHdrFragmentOffsetOffset) with
  | some v => some (v >>> ipv6FragmentExtHdrFragmentOffsetShift)
  | none => none

/-- `IPv6FragmentExtHdr.More`: whether the M flag is set. -/
def More (b : List Nat) : Option Bool :=
  match b[ipv6FragmentExtHdrFlagsIdx]? with
  | some f => some (f &&& ipv6FragmentExtHdrMFlagMask != 0)
  | none => none

/-- `IPv6FragmentExtHdr.ID`: the big-endian 32-bit value two bytes into the buffer. -/
def ID (b : List Nat) : Option Nat :=
  if ipv6FragmentExtHdrIdentificationOffset ≤ b.length then
    bigEndianUint32 (b.drop ipv6FragmentExtHdrIdentificationOffset)
  else none

/-! ## Errors -/

/-- The error a `Read` reports; the reader below only ever reports `io.EOF`. -/
inductive ReadError where
  | EOF
deriving DecidableEq

/-- The errors `nextHeaderData` builds with `fmt.Errorf`, one constructor per format
string; each carries the values formatted into the message and the wrapped error.

* `nextHeaderField id`: "error when reading the Next Header field for extension header
  with id = %d: %w"
* `lengthField id`: "error when reading the Length field for extension header with
  id = %d: %w"
* `reservedField id`: "error when reading the Reserved field for extension header with
  id = %d: %w"
* `headerData read total length id`: "read %d out of %d extension header data bytes
  (length = %d) for header with id = %d: %w" -/
inductive IterError where
  | nextHeaderField (id : Nat) (cause : ReadError)
  | lengthField (id : Nat) (cause : ReadError)
  | reservedField (id : Nat) (cause : ReadError)
  | headerData (read total length id : Nat) (cause : ReadError)
deriving DecidableEq

/-! ## The iterator -/

/-- Modelled from the spec: `buffer.VectorisedView.Reader` and the `io.Reader` it returns
are not among the sources. The reader is a cursor over the payload bytes, given here by
the bytes it has not yet read; `Read r n` is a `Read` into a buffer of `n` bytes and
returns the bytes copied, the reader afterwards and the error: with nothing left to read
it copies nothing and reports `io.EOF`, otherwise it copies up to `n` bytes and reports
no error. -/
def Read (r : List Nat) (n : Nat) : List Nat × List Nat × Option ReadError :=
  match r with
  | [] => ([], [], some ReadError.EOF)
  | _ :: _ => (r.take n, r.drop n, none)

/-- The iterator `IPv6PayloadIterator`; a nil `reader` is `none`. -/
structure IPv6PayloadIterator where
  nextHdrIdentifier : Nat
  reader : Option (List Nat)
  payload : List Nat
  forceRaw : Bool
deriving DecidableEq

/-- `IPv6PayloadIterator.AsRawHeader`: the remaining payload as a raw header; the iterator
is marked as done. -/
def AsRawHeader (i : IPv6PayloadIterator) : IPv6RawPayloadHeader × IPv6PayloadIterator :=
  let buf := i.payload
  let identifier := i.nextHdrIdentifier
  ({ Identifier := identifier, Buf := buf },
   { nextHdrIdentifier := ipv6NoNextHeaderIdentifier, payload := [], reader := none,
     forceRaw := false })

/-- The loop of `nextHeaderData` that fills `bytes`: `filled` holds the bytes read so
far and `tempLen` is `len(tempBytes)`. The first argument bounds the number of
iterations; `none` is a nil reader or an exhausted bound. -/
def readHeaderData (bytesLen length : Nat) :
    Nat → IPv6PayloadIterator → List Nat → Nat →
      Option ((List Nat × Option IterError) × IPv6PayloadIterator)
  | 0, i, filled, tempLen => if tempLen > 0 then none else some ((filled, none), i)
  | fuel + 1, i, filled, tempLen =>
    if tempLen > 0 then
      match i.reader with
      | none => none
      | some r =>
        match Read r tempLen with
        | (data, r', err) =>
          let i' : IPv6PayloadIterator :=
            { i with reader := some r', payload := i.payload.drop data.length }
          match err with
          | some e =>
            some (([], some (IterError.headerData (bytesLen - (tempLen - data.length))
              bytesLen length i'.nextHdrIdentifier e)), i')
          | none => readHeaderData bytesLen length fuel i' (filled ++ data)
              (tempLen - data.length)
    else some ((filled, none), i)

/-- `IPv6PayloadIterator.nextHeaderData`: the extension header's Next Header field and
raw data, as the triple the Go function returns, and the iterator afterwards. -/
def nextHeaderData (i : IPv6PayloadIterator) (fragmentHdr : Bool) :
    Option ((Nat × List Nat × Option IterError) × IPv6PayloadIterator) :=
  match i.reader with
  | none => none
  | some r =>
    match Read r 1 with
    | (rune, r1, err) =>
      let i1 : IPv6PayloadIterator := { i with reader := some r1, payload := i.payload.drop 1 }
      match err with
      | some e => some ((0, [], some (IterError.nextHeaderField i1.nextHdrIdentifier e)), i1)
      | none =>
        let nextHdrIdentifier := rune.headD 0
        match Read r1 1 with
        | (rune2, r2, err2) =>
          let i2 : IPv6PayloadIterator :=
            { i1 with reader := some r2, payload := i1.payload.drop 1 }
          match err2 with
          | some e =>
            let ret :=
              if fragmentHdr then IterError.lengthField i2.nextHdrIdentifier e
              else IterError.reservedField i2.nextHdrIdentifier e
            some ((0, [], some ret), i2)
          | none =>
            let length := if !fragmentHdr then rune2.headD 0 else 0
            let bytesLen := length * ipv6ExtHdrLenBytesPerUnit + ipv6ExtHdrLenBytesExcluded
            match readHeaderData bytesLen length bytesLen i2 [] bytesLen with
            | none => none
            | some ((_, some e), i3) => some ((0, [], some e), i3)
            | some ((bytes, none), i3) => some ((nextHdrIdentifier, bytes, none), i3)

/-- `IPv6PayloadIterator.Next`: the triple (header, done, error) and the iterator
afterwards; `none` is a panic. -/
def Next (i : IPv6PayloadIterator) :
    Option ((Option IPv6PayloadHeader × Bool × Option IterError) × IPv6PayloadIterator) :=
  if i.forceRaw then
    some ((some (IPv6PayloadHeader.raw (AsRawHeader i).1), false, none), (AsRawHeader i).2)
  else if i.nextHdrIdentifier = ipv6FragmentExtHdrIdentifier
      ∨ i.nextHdrIdentifier = ipv6RoutingExtHdrIdentifier then
    match nextHeaderData i (i.nextHdrIdentifier == ipv6FragmentExtHdrIdentifier) with
    | none => none
    | some ((_, _, some err), i1) => some ((none, true, some err), i1)
    | some ((nextHdrIdentifier, bytes, none), i1) =>
      if i1.nextHdrIdentifier = ipv6RoutingExtHdrIdentifier then
        some ((some (IPv6PayloadHeader.routing bytes), false, none),
          { i1 with nextHdrIdentifier := nextHdrIdentifier })
      else if i1.nextHdrIdentifier = ipv6FragmentExtHdrIdentifier then
        match More bytes with
        | none => none
        | some true =>
          some ((some (IPv6PayloadHeader.fragment bytes), false, none),
            { i1 with forceRaw := true, nextHdrIdentifier := nextHdrIdentifier })
        | some false =>
          match FragmentOffset bytes with
          | none => none
          | some off =>
            if off ≠ 0 then
              some ((some (IPv6PayloadHeader.fragment bytes), false, none),
                { i1 with forceRaw := true, nextHdrIdentifier := nextHdrIdentifier })
            else
              some ((some (IPv6PayloadHeader.fragment bytes), false, none),
                { i1 with nextHdrIdentifier := nextHdrIdentifier })
      else none
  else if i.nextHdrIdentifier = ipv6NoNextHeaderIdentifier then
    some ((none, true, none), i)
  else
    some ((some (IPv6PayloadHeader.raw (AsRawHeader i).1), false, none), (AsRawHeader i).2)

/-- The validation loop of `MakeIPv6PayloadIterator`: calls `Next` on `it2` until it
reports an error or done, and returns that error. The first argument bounds the number
of calls; `none` is a panic in `Next` or an exhausted bound. -/
def checkLoop : Nat → IPv6PayloadIterator → Option (Option IterError)
  | 0, _ => none
  | fuel + 1, it2 =>
    match Next it2 with
    | none => none
    | some ((_, done, err), it2') =>
      if err.isSome || done then some err else checkLoop fuel it2'

/-- `MakeIPv6PayloadIterator`: the iterator over `payload` and the error of the
validation pass. The clone of the payload has the same bytes, and the reader starts at
its first byte. -/
def MakeIPv6PayloadIterator (nextHdrIdentifier : Nat) (payload : List Nat) (check : Bool) :
    Option (IPv6PayloadIterator × Option IterError) :=
  let it : IPv6PayloadIterator :=
    { nextHdrIdentifier := nextHdrIdentifier, payload := payload, reader := some payload,
      forceRaw := false }
  if check then
    let it2 : IPv6PayloadIterator :=
      { nextHdrIdentifier := nextHdrIdentifier, payload := payload, reader := some payload,
        forceRaw := false }
    match checkLoop (payload.length + 2) it2 with
    | none => none
    | some err => some (it, err)
  else some (it, none)

/-- The iterator after `n` calls of `Next`, whatever they return; `none` when one of
them panics. -/
def NextN : Nat → IPv6PayloadIterator → Option IPv6PayloadIterator
  | 0, i => some i
  | n + 1, i =>
    match Next i with
    | none => none
    | some (_, i') => NextN n i'

/-- The iterator states a caller can reach: those `MakeIPv6PayloadIterator` returns, and
those left by a call of `Next` on a state already reached. -/
inductive Reachable : IPv6PayloadIterator → Prop where
  | make (id : Nat) (payload : List Nat) (check : Bool) (it : IPv6PayloadIterator)
      (err : Option IterError)
      (h : MakeIPv6PayloadIterator id payload check = some (it, err)) : Reachable it
  | next (i : IPv6PayloadIterator)
      (r : Option IPv6PayloadHeader × Bool × Option IterError) (i' : IPv6PayloadIterator)
      (hi : Reachable i) (h : Next i = some (r, i')) : Reachable i'

/-- The reader and the payload view of an iterator stand at the same byte, or the
iterator has been completed by `AsRawHeader`, which drops the reader. -/
def InSync (i : IPv6PayloadIterator) : Prop :=
  i.reader = some i.payload ∨
    (i.reader = none ∧ i.payload = [] ∧ i.nextHdrIdentifier = ipv6NoNextHeaderIdentifier ∧
      i.forceRaw = false)

/-- Calling `Next` again and again from `i`, the first `n` calls report neither done nor
an error and call `n + 1` is the first to report done or an error; `err` is the error of
that call, `none` when it reports done without one. -/
def StopsAt : Nat → IPv6PayloadIterator → Option IterError → Prop
  | 0, i, err => ∃ h d j, Next i = some ((h, d, err), j) ∧ (err.isSome = true ∨ d = true)
  | n + 1, i, err => ∃ h j, Next i = some ((h, false, none), j) ∧ StopsAt n j err

/-- The iterator states a caller can reach from `MakeIPv6PayloadIterator id payload` by
calls of `Next` and of `AsRawHeader`, in any order. -/
inductive ReachableFrom (id : Nat) (payload : List Nat) : IPv6PayloadIterator → Prop where
  | make (check : Bool) (it : IPv6PayloadIterator) (err : Option IterError)
      (h : MakeIPv6PayloadIterator id payload check = some (it, err)) :
      ReachableFrom id payload it
  | next (i : IPv6PayloadIterator)
      (r : Option IPv6PayloadHeader × Bool × Option IterError) (j : IPv6PayloadIterator)
      (hi : ReachableFrom id payload i) (h : Next i = some (r, j)) :
      ReachableFrom id payload j
  | asRawHeader (i : IPv6PayloadIterator) (hi : ReachableFrom id payload i) :
      ReachableFrom id payload (AsRawHeader i).2

/-! ## The read loop and `nextHeaderData` in closed form -/

/-- The read loop stops at once when no byte is wanted. -/
theorem readHeaderData_zero (bytesLen length fuel : Nat) (i : IPv6PayloadIterator)
    (filled : List Nat) :
    readHeaderData bytesLen length fuel i filled 0 = some ((filled, none), i) := by
  cases fuel <;> simp [readHeaderData]

/-- With at least `tempLen` bytes left the read loop returns them after one `Read`; a bound
of `tempLen` iterations is enough. -/
theorem readHeaderData_enough (bytesLen length fuel : Nat) (i : IPv6PayloadIterator)
    (filled r : List Nat) (tempLen : Nat) (hr : i.reader = some r) (hpos : 0 < tempLen)
    (hfuel : tempLen ≤ fuel) (hlen : tempLen ≤ r.length) :
    readHeaderData bytesLen length fuel i filled tempLen =
      some ((filled ++ r.take tempLen, none),
        { i with reader := some (r.drop tempLen), payload := i.payload.drop tempLen }) := by
  obtain ⟨f, rfl⟩ : ∃ f, fuel = f + 1 := ⟨fuel - 1, by omega⟩
  cases r with
  | nil => simp at hlen; omega
  | cons a t =>
    have hmin : min tempLen (t.length + 1) = tempLen := by
      simp only [List.length_cons] at hlen; omega
    simp [readHeaderData, hr, Read, hpos, hmin, readHeaderData_zero]

/-- With fewer than `tempLen` bytes left the read loop consumes them all and fails; a bound
of `tempLen` iterations is enough. -/
theorem readHeaderData_short (bytesLen length fuel : Nat) (i : IPv6PayloadIterator)
    (filled r : List Nat) (tempLen : Nat) (hr : i.reader = some r)
    (hfuel : tempLen ≤ fuel) (hlen : r.length < tempLen) :
    readHeaderData bytesLen length fuel i filled tempLen =
      some (([], some (IterError.headerData (bytesLen - (tempLen - r.length)) bytesLen length
          i.nextHdrIdentifier ReadError.EOF)),
        { i with reader := some [], payload := i.payload.drop r.length }) := by
  obtain ⟨f, rfl⟩ : ∃ f, fuel = f + 1 := ⟨fuel - 1, by omega⟩
  have hpos : 0 < tempLen := by omega
  cases r with
  | nil => simp [readHeaderData, hr, Read, hpos]
  | cons a t =>
    simp only [List.length_cons] at hlen
    obtain ⟨g, rfl⟩ : ∃ g, f = g + 1 := ⟨f - 1, by omega⟩
    have hmin : min tempLen (t.length + 1) = t.length + 1 := by omega
    have hpos2 : 0 < tempLen - (t.length + 1) := by omega
    have htake : List.take tempLen (a :: t) = a :: t := List.take_of_length_le (by simp; omega)
    have hdrop : List.drop tempLen (a :: t) = [] := List.drop_of_length_le (by simp; omega)
    simp [readHeaderData, hr, Read, hpos, hmin, hpos2, htake, hdrop]


/-- No byte left: the Next Header field cannot be read. -/
theorem nextHeaderData_nil (i : IPv6PayloadIterator) (fragmentHdr : Bool)
    (hr : i.reader = some []) :
    nextHeaderData i fragmentHdr =
      some ((0, [], some (IterError.nextHeaderField i.nextHdrIdentifier ReadError.EOF)),
        { i with reader := some [], payload := i.payload.drop 1 }) := by
  simp [nextHeaderData, hr, Read]

/-- One byte left: the second field cannot be read. -/
theorem nextHeaderData_one (i : IPv6PayloadIterator) (fragmentHdr : Bool) (a : Nat)
    (hr : i.reader = some [a]) :
    nextHeaderData i fragmentHdr =
      some ((0, [], some (if fragmentHdr then IterError.lengthField i.nextHdrIdentifier ReadError.EOF
          else IterError.reservedField i.nextHdrIdentifier ReadError.EOF)),
        { i with reader := some [], payload := (i.payload.drop 1).drop 1 }) := by
  simp [nextHeaderData, hr, Read]

/-- A complete header: the first byte, and the body that follows the first two bytes. -/
theorem nextHeaderData_enough (i : IPv6PayloadIterator) (fragmentHdr : Bool) (a l : Nat)
    (rest : List Nat) (hr : i.reader = some (a :: l :: rest))
    (hlen : (if fragmentHdr then 0 else l) * 8 + 6 ≤ rest.length) :
    nextHeaderData i fragmentHdr =
      some ((a, rest.take ((if fragmentHdr then 0 else l) * 8 + 6), none),
        { i with reader := some (rest.drop ((if fragmentHdr then 0 else l) * 8 + 6)),
                 payload := ((i.payload.drop 1).drop 1).drop
                   ((if fragmentHdr then 0 else l) * 8 + 6) }) := by
  cases fragmentHdr
  · simp only [Bool.false_eq_true, if_false] at hlen ⊢
    simp [nextHeaderData, hr, Read]
    rw [readHeaderData_enough (l * 8 + 6) l (l * 8 + 6) _ [] rest (l * 8 + 6) rfl (by omega)
      (le_refl _) hlen]
    simp
  · simp only [if_true] at hlen ⊢
    simp [nextHeaderData, hr, Read]
    rw [readHeaderData_enough 6 0 6 _ [] rest 6 rfl (by omega) (le_refl _) (by simpa using hlen)]
    simp

/-- Two bytes and an incomplete body: the data error. -/
theorem nextHeaderData_short (i : IPv6PayloadIterator) (fragmentHdr : Bool) (a l : Nat)
    (rest : List Nat) (hr : i.reader = some (a :: l :: rest))
    (hlen : rest.length < (if fragmentHdr then 0 else l) * 8 + 6) :
    nextHeaderData i fragmentHdr =
      some ((0, [], some (IterError.headerData rest.length
          ((if fragmentHdr then 0 else l) * 8 + 6) (if fragmentHdr then 0 else l)
          i.nextHdrIdentifier ReadError.EOF)),
        { i with reader := some [],
                 payload := ((i.payload.drop 1).drop 1).drop rest.length }) := by
  cases fragmentHdr
  · simp only [Bool.false_eq_true, if_false] at hlen ⊢
    simp [nextHeaderData, hr, Read]
    rw [readHeaderData_short (l * 8 + 6) l (l * 8 + 6) _ [] rest (l * 8 + 6) rfl
      (le_refl _) hlen]
    have : l * 8 + 6 - (l * 8 + 6 - rest.length) = rest.length := by omega
    simp [this]
  · simp only [if_true] at hlen ⊢
    simp [nextHeaderData, hr, Read]
    rw [readHeaderData_short 6 0 6 _ [] rest 6 rfl (le_refl _) (by simpa using hlen)]
    have : 6 - (6 - rest.length) = rest.length := by omega
    simp [this]


/-- The accessor `More` returns on a buffer of two bytes or more. -/
theorem More_of_length (b : List Nat) (h : 2 ≤ b.length) : ∃ m, More b = some m := by
  match b, h with
  | _ :: f :: _, _ => simp [More]

/-- The accessor `FragmentOffset` returns on a buffer of two bytes or more. -/
theorem FragmentOffset_of_length (b : List Nat) (h : 2 ≤ b.length) :
    ∃ off, FragmentOffset b = some off := by
  match b, h with
  | _ :: _ :: _, _ => simp [FragmentOffset, bigEndianUint16]

/-- The Routing identifier is not the Fragment identifier. -/
theorem routing_beq_fragment : ((43 : Nat) == ipv6FragmentExtHdrIdentifier) = false := rfl

/-- The Fragment identifier is the Fragment identifier. -/
theorem fragment_beq_fragment : ((44 : Nat) == ipv6FragmentExtHdrIdentifier) = true := rfl

/-- With `forceRaw` set, `Next` returns the remaining payload as a raw header. -/
theorem Next_forceRaw (i : IPv6PayloadIterator) (h : i.forceRaw = true) :
    Next i = some ((some (IPv6PayloadHeader.raw ⟨i.nextHdrIdentifier, i.payload⟩), false, none),
      ⟨59, none, [], false⟩) := by
  simp [Next, h, AsRawHeader]

/-- At NoNextHeader, `Next` reports done and leaves the iterator as it is. -/
theorem Next_noNextHeader (i : IPv6PayloadIterator) (h : i.forceRaw = false)
    (hid : i.nextHdrIdentifier = 59) : Next i = some ((none, true, none), i) := by
  simp [Next, h, hid]

/-- At an unrecognised identifier, `Next` returns the remaining payload as a raw header. -/
theorem Next_unrecognized (i : IPv6PayloadIterator) (h : i.forceRaw = false)
    (h43 : i.nextHdrIdentifier ≠ 43) (h44 : i.nextHdrIdentifier ≠ 44)
    (h59 : i.nextHdrIdentifier ≠ 59) :
    Next i = some ((some (IPv6PayloadHeader.raw ⟨i.nextHdrIdentifier, i.payload⟩), false, none),
      ⟨59, none, [], false⟩) := by
  simp [Next, h, h43, h44, h59, AsRawHeader]

/-- An extension header with no byte left. -/
theorem Next_ext_nil (i : IPv6PayloadIterator) (h : i.forceRaw = false)
    (hid : i.nextHdrIdentifier = 43 ∨ i.nextHdrIdentifier = 44) (hr : i.reader = some []) :
    Next i = some ((none, true, some (IterError.nextHeaderField i.nextHdrIdentifier ReadError.EOF)),
      { i with reader := some [], payload := i.payload.drop 1 }) := by
  rcases hid with hid | hid <;> simp [Next, h, hid, nextHeaderData_nil _ _ hr]

/-- A Routing header with one byte left. -/
theorem Next_routing_one (i : IPv6PayloadIterator) (h : i.forceRaw = false)
    (hid : i.nextHdrIdentifier = 43) (a : Nat) (hr : i.reader = some [a]) :
    Next i = some ((none, true, some (IterError.reservedField 43 ReadError.EOF)),
      { i with reader := some [], payload := (i.payload.drop 1).drop 1 }) := by
  simp [Next, h, hid, routing_beq_fragment, fragment_beq_fragment, nextHeaderData_one _ _ a hr]

/-- A Fragment header with one byte left. -/
theorem Next_fragment_one (i : IPv6PayloadIterator) (h : i.forceRaw = false)
    (hid : i.nextHdrIdentifier = 44) (a : Nat) (hr : i.reader = some [a]) :
    Next i = some ((none, true, some (IterError.lengthField 44 ReadError.EOF)),
      { i with reader := some [], payload := (i.payload.drop 1).drop 1 }) := by
  simp [Next, h, hid, routing_beq_fragment, fragment_beq_fragment, nextHeaderData_one _ _ a hr]

/-- A complete Routing header. -/
theorem Next_routing_enough (i : IPv6PayloadIterator) (h : i.forceRaw = false)
    (hid : i.nextHdrIdentifier = 43) (a l : Nat) (rest : List Nat)
    (hr : i.reader = some (a :: l :: rest)) (hlen : l * 8 + 6 ≤ rest.length) :
    Next i = some ((some (IPv6PayloadHeader.routing (rest.take (l * 8 + 6))), false, none),
      { i with reader := some (rest.drop (l * 8 + 6)),
               payload := ((i.payload.drop 1).drop 1).drop (l * 8 + 6),
               nextHdrIdentifier := a }) := by
  have hd := nextHeaderData_enough i false a l rest hr (by simpa using hlen)
  simp only [Bool.false_eq_true, if_false] at hd
  simp [Next, h, hid, routing_beq_fragment, fragment_beq_fragment, hd]

/-- A Routing header whose body is cut short. -/
theorem Next_routing_short (i : IPv6PayloadIterator) (h : i.forceRaw = false)
    (hid : i.nextHdrIdentifier = 43) (a l : Nat) (rest : List Nat)
    (hr : i.reader = some (a :: l :: rest)) (hlen : rest.length < l * 8 + 6) :
    Next i = some ((none, true,
        some (IterError.headerData rest.length (l * 8 + 6) l 43 ReadError.EOF)),
      { i with reader := some [], payload := ((i.payload.drop 1).drop 1).drop rest.length }) := by
  have hd := nextHeaderData_short i false a l rest hr (by simpa using hlen)
  simp only [Bool.false_eq_true, if_false] at hd
  simp [Next, h, hid, routing_beq_fragment, fragment_beq_fragment, hd]

/-- A Fragment header whose body is cut short. -/
theorem Next_fragment_short (i : IPv6PayloadIterator) (h : i.forceRaw = false)
    (hid : i.nextHdrIdentifier = 44) (a l : Nat) (rest : List Nat)
    (hr : i.reader = some (a :: l :: rest)) (hlen : rest.length < 6) :
    Next i = some ((none, true, some (IterError.headerData rest.length 6 0 44 ReadError.EOF)),
      { i with reader := some [], payload := ((i.payload.drop 1).drop 1).drop rest.length }) := by
  have hd := nextHeaderData_short i true a l rest hr (by simpa using hlen)
  simp only [if_true] at hd
  simp [Next, h, hid, routing_beq_fragment, fragment_beq_fragment, hd]

/-- A complete Fragment header; `forceRaw` records whether the packet is fragmented. -/
theorem Next_fragment_enough (i : IPv6PayloadIterator) (h : i.forceRaw = false)
    (hid : i.nextHdrIdentifier = 44) (a l : Nat) (rest : List Nat)
    (hr : i.reader = some (a :: l :: rest)) (hlen : 6 ≤ rest.length) :
    ∃ m off, More (rest.take 6) = some m ∧ FragmentOffset (rest.take 6) = some off ∧
      Next i = some ((some (IPv6PayloadHeader.fragment (rest.take 6)), false, none),
        { i with reader := some (rest.drop 6),
                 payload := ((i.payload.drop 1).drop 1).drop 6,
                 forceRaw := m || decide (off ≠ 0),
                 nextHdrIdentifier := a }) := by
  have hd := nextHeaderData_enough i true a l rest hr (by simpa using hlen)
  simp only [if_true] at hd
  obtain ⟨m, hm⟩ := More_of_length (rest.take 6) (by simp; omega)
  obtain ⟨off, hoff⟩ := FragmentOffset_of_length (rest.take 6) (by simp; omega)
  refine ⟨m, off, hm, hoff, ?_⟩
  cases m
  · by_cases ho : off = 0
    · simp [Next, h, hid, routing_beq_fragment, fragment_beq_fragment, hd, hm, hoff, ho]
    · simp [Next, h, hid, routing_beq_fragment, fragment_beq_fragment, hd, hm, hoff, ho]
  · simp [Next, h, hid, routing_beq_fragment, fragment_beq_fragment, hd, hm, hoff]


/-- The five ways a call of `Next` on an iterator in sync can go. -/
theorem Next_cases (i : IPv6PayloadIterator) (hs : InSync i) :
    ((i.forceRaw = true ∨ (i.nextHdrIdentifier ≠ 43 ∧ i.nextHdrIdentifier ≠ 44 ∧
          i.nextHdrIdentifier ≠ 59)) ∧
      Next i = some ((some (IPv6PayloadHeader.raw ⟨i.nextHdrIdentifier, i.payload⟩), false,
        none), ⟨59, none, [], false⟩)) ∨
    (i.forceRaw = false ∧ i.nextHdrIdentifier = 59 ∧ Next i = some ((none, true, none), i)) ∨
    (i.forceRaw = false ∧ (i.nextHdrIdentifier = 43 ∨ i.nextHdrIdentifier = 44) ∧
      (i.payload.length < 2 ∨
        (i.nextHdrIdentifier = 43 ∧ i.payload.length < 8 + 8 * i.payload.getD 1 0) ∨
        (i.nextHdrIdentifier = 44 ∧ i.payload.length < 8)) ∧
      ∃ e, Next i = some ((none, true, some e), ⟨i.nextHdrIdentifier, some [], [], false⟩)) ∨
    (i.forceRaw = false ∧ i.nextHdrIdentifier = 43 ∧
      ∃ a l rest, i.payload = a :: l :: rest ∧ l * 8 + 6 ≤ rest.length ∧
        Next i = some ((some (IPv6PayloadHeader.routing (rest.take (l * 8 + 6))), false, none),
          ⟨a, some (rest.drop (l * 8 + 6)), rest.drop (l * 8 + 6), false⟩)) ∨
    (i.forceRaw = false ∧ i.nextHdrIdentifier = 44 ∧
      ∃ a l rest m off, i.payload = a :: l :: rest ∧ 6 ≤ rest.length ∧
        More (rest.take 6) = some m ∧ FragmentOffset (rest.take 6) = some off ∧
        Next i = some ((some (IPv6PayloadHeader.fragment (rest.take 6)), false, none),
          ⟨a, some (rest.drop 6), rest.drop 6, m || decide (off ≠ 0)⟩)) := by
  obtain ⟨id, reader, payload, forceRaw⟩ := i
  cases forceRaw with
  | true => exact Or.inl ⟨Or.inl rfl, Next_forceRaw _ rfl⟩
  | false =>
    by_cases h59 : id = 59
    · exact Or.inr (Or.inl ⟨rfl, h59, Next_noNextHeader _ rfl h59⟩)
    by_cases h43 : id = 43
    · subst h43
      rcases hs with hs | ⟨_, _, hid, _⟩
      · simp only at hs
        subst hs
        match payload with
        | [] =>
          refine Or.inr (Or.inr (Or.inl ⟨rfl, Or.inl rfl, Or.inl (by simp),
            IterError.nextHeaderField 43 ReadError.EOF, ?_⟩))
          rw [Next_ext_nil _ rfl (Or.inl rfl) rfl]; rfl
        | [a] =>
          refine Or.inr (Or.inr (Or.inl ⟨rfl, Or.inl rfl, Or.inl (by simp),
            IterError.reservedField 43 ReadError.EOF, ?_⟩))
          rw [Next_routing_one _ rfl rfl a rfl]; rfl
        | a :: l :: rest =>
          by_cases hlen : l * 8 + 6 ≤ rest.length
          · refine Or.inr (Or.inr (Or.inr (Or.inl ⟨rfl, rfl, a, l, rest, rfl, hlen, ?_⟩)))
            rw [Next_routing_enough _ rfl rfl a l rest rfl hlen]; rfl
          · refine Or.inr (Or.inr (Or.inl ⟨rfl, Or.inl rfl,
              Or.inr (Or.inl ⟨rfl, by simp; omega⟩),
              IterError.headerData rest.length (l * 8 + 6) l 43 ReadError.EOF, ?_⟩))
            rw [Next_routing_short _ rfl rfl a l rest rfl (by omega)]
            simp
      · simp at hid
    by_cases h44 : id = 44
    · subst h44
      rcases hs with hs | ⟨_, _, hid, _⟩
      · simp only at hs
        subst hs
        match payload with
        | [] =>
          refine Or.inr (Or.inr (Or.inl ⟨rfl, Or.inr rfl, Or.inl (by simp),
            IterError.nextHeaderField 44 ReadError.EOF, ?_⟩))
          rw [Next_ext_nil _ rfl (Or.inr rfl) rfl]; rfl
        | [a] =>
          refine Or.inr (Or.inr (Or.inl ⟨rfl, Or.inr rfl, Or.inl (by simp),
            IterError.lengthField 44 ReadError.EOF, ?_⟩))
          rw [Next_fragment_one _ rfl rfl a rfl]; rfl
        | a :: l :: rest =>
          by_cases hlen : 6 ≤ rest.length
          · obtain ⟨m, off, hm, hoff, hn⟩ := Next_fragment_enough
              ⟨44, some (a :: l :: rest), a :: l :: rest, false⟩ rfl rfl a l rest rfl hlen
            refine Or.inr (Or.inr (Or.inr (Or.inr
              ⟨rfl, rfl, a, l, rest, m, off, rfl, hlen, hm, hoff, ?_⟩)))
            rw [hn]; rfl
          · refine Or.inr (Or.inr (Or.inl ⟨rfl, Or.inr rfl,
              Or.inr (Or.inr ⟨rfl, by simp; omega⟩),
              IterError.headerData rest.length 6 0 44 ReadError.EOF, ?_⟩))
            rw [Next_fragment_short _ rfl rfl a l rest rfl (by omega)]
            simp
      · simp at hid
    · exact Or.inl ⟨Or.inr ⟨h43, h44, h59⟩, Next_unrecognized _ rfl h43 h44 h59⟩

/-- A call of `Next` keeps reader and payload in sync. -/
theorem InSync_Next (i : IPv6PayloadIterator) (hs : InSync i)
    (r : Option IPv6PayloadHeader × Bool × Option IterError) (j : IPv6PayloadIterator)
    (h : Next i = some (r, j)) : InSync j := by
  rcases Next_cases i hs with ⟨_, hn⟩ | ⟨_, _, hn⟩ | ⟨_, _, _, e, hn⟩ |
      ⟨_, _, a, l, rest, _, _, hn⟩ | ⟨_, _, a, l, rest, m, off, _, _, _, _, hn⟩ <;>
    rw [hn] at h <;> simp only [Option.some.injEq, Prod.mk.injEq] at h <;>
    obtain ⟨_, rfl⟩ := h
  · exact Or.inr ⟨rfl, rfl, rfl, rfl⟩
  · exact hs
  · exact Or.inl rfl
  · exact Or.inl rfl
  · exact Or.inl rfl

/-- Whatever the validation pass reports, the iterator returned is the fresh one. -/
theorem MakeIPv6PayloadIterator_fst (id : Nat) (payload : List Nat) (check : Bool)
    (it : IPv6PayloadIterator) (err : Option IterError)
    (h : MakeIPv6PayloadIterator id payload check = some (it, err)) :
    it = ⟨id, some payload, payload, false⟩ := by
  cases check
  · simp [MakeIPv6PayloadIterator] at h
    exact h.1.symm
  · simp only [MakeIPv6PayloadIterator, if_true] at h
    split at h
    · exact absurd h (by simp)
    · simp only [Option.some.injEq, Prod.mk.injEq] at h
      exact h.1.symm

/-- Every reachable iterator has reader and payload in sync. -/
theorem Reachable.inSync {i : IPv6PayloadIterator} (h : Reachable i) : InSync i := by
  induction h with
  | make id payload check it err h =>
    rw [MakeIPv6PayloadIterator_fst id payload check it err h]
    exact Or.inl rfl
  | next i r j _ h ih => exact InSync_Next i ih r j h

/-- An error comes with no header and done, and only from the structured decode. -/
theorem Next_error_shape (i : IPv6PayloadIterator) (h : Option IPv6PayloadHeader) (d : Bool)
    (e : IterError) (j : IPv6PayloadIterator) (hn : Next i = some ((h, d, some e), j)) :
    h = none ∧ d = true ∧ i.forceRaw = false ∧
      (i.nextHdrIdentifier = 43 ∨ i.nextHdrIdentifier = 44) := by
  unfold Next at hn
  split_ifs at hn with h1 h2 h3
  · simp at hn
  · split at hn
    · simp at hn
    · simp only [Option.some.injEq, Prod.mk.injEq] at hn
      refine ⟨hn.1.1.symm, hn.1.2.1.symm, by simpa using h1, ?_⟩
      rcases h2 with h2 | h2
      · exact Or.inr h2
      · exact Or.inl h2
    · split_ifs at hn
      · simp at hn
      · split at hn
        · simp at hn
        · simp at hn
        · split at hn
          · simp at hn
          · split_ifs at hn <;> simp at hn
  · simp at hn
  · simp at hn

/-- Once `Next` reports done without changing the iterator, it does so for ever. -/
theorem NextN_done (i : IPv6PayloadIterator) (h : Next i = some ((none, true, none), i))
    (n : Nat) : NextN n i = some i := by
  induction n with
  | zero => rfl
  | succ k ih => simp only [NextN, h]; exact ih

/-! ## The validation loop and sequences of calls -/

/-- A sequence of calls that stops at call `n + 1` is what the validation loop finds, given
a bound above `n`. -/
theorem checkLoop_of_StopsAt (n : Nat) :
    ∀ (i : IPv6PayloadIterator) (err : Option IterError) (f : Nat),
      StopsAt n i err → n < f → checkLoop f i = some err := by
  induction n with
  | zero =>
    intro i err f hs hf
    obtain ⟨g, rfl⟩ : ∃ g, f = g + 1 := ⟨f - 1, by omega⟩
    obtain ⟨h, d, j, hn, hstop⟩ := hs
    simp only [checkLoop, hn]
    rcases hstop with he | hd
    · simp [he]
    · simp [hd]
  | succ k ih =>
    intro i err f hs hf
    obtain ⟨g, rfl⟩ : ∃ g, f = g + 1 := ⟨f - 1, by omega⟩
    obtain ⟨h, j, hn, hrest⟩ := hs
    simp only [checkLoop, hn]
    simpa using ih j err g hrest (by omega)

/-- What the validation loop returns is the error of the first call that stops. -/
theorem StopsAt_of_checkLoop (f : Nat) :
    ∀ (i : IPv6PayloadIterator) (err : Option IterError),
      checkLoop f i = some err → ∃ n, n < f ∧ StopsAt n i err := by
  induction f with
  | zero => intro i err h; simp [checkLoop] at h
  | succ g ih =>
    intro i err h
    simp only [checkLoop] at h
    split at h
    · simp at h
    · rename_i hd done e j hn
      by_cases hstop : (e.isSome || done) = true
      · rw [if_pos hstop] at h
        obtain rfl := Option.some.inj h
        refine ⟨0, by omega, hd, done, j, hn, ?_⟩
        simpa using hstop
      · rw [if_neg hstop] at h
        obtain ⟨n, hlt, hs⟩ := ih j err h
        simp only [Bool.or_eq_true, not_or, Option.isSome_iff_ne_none, ne_eq, not_not,
          Bool.not_eq_true] at hstop
        obtain ⟨rfl, rfl⟩ := hstop
        exact ⟨n + 1, by omega, hd, j, hn, hs⟩

/-- The call that stops first, and its error, are determined by the iterator. -/
theorem StopsAt_unique (n : Nat) :
    ∀ (m : Nat) (i : IPv6PayloadIterator) (e1 e2 : Option IterError),
      StopsAt n i e1 → StopsAt m i e2 → n = m ∧ e1 = e2 := by
  intro m i e1 e2 h1 h2
  have c1 := checkLoop_of_StopsAt n i e1 (n + m + 1) h1 (by omega)
  have c2 := checkLoop_of_StopsAt m i e2 (n + m + 1) h2 (by omega)
  rw [c1] at c2
  obtain rfl := Option.some.inj c2
  refine ⟨?_, rfl⟩
  clear c1
  induction n generalizing m i with
  | zero =>
    cases m with
    | zero => rfl
    | succ k =>
      obtain ⟨h, d, j, hn, hstop⟩ := h1
      obtain ⟨h', j', hn', _⟩ := h2
      rw [hn] at hn'
      simp only [Option.some.injEq, Prod.mk.injEq] at hn'
      obtain ⟨⟨_, rfl, rfl⟩, _⟩ := hn'
      simp at hstop
  | succ k ih =>
    cases m with
    | zero =>
      obtain ⟨h, d, j, hn, hstop⟩ := h2
      obtain ⟨h', j', hn', _⟩ := h1
      rw [hn] at hn'
      simp only [Option.some.injEq, Prod.mk.injEq] at hn'
      obtain ⟨⟨_, rfl, rfl⟩, _⟩ := hn'
      simp at hstop
    | succ l =>
      obtain ⟨h, j, hn, hs⟩ := h1
      obtain ⟨h', j', hn', hs'⟩ := h2
      rw [hn] at hn'
      simp only [Option.some.injEq, Prod.mk.injEq, and_true, true_and] at hn'
      obtain ⟨_, rfl⟩ := hn'
      have := ih l j hs hs'
      omega

/-- From an iterator in sync the calls stop within one call per 8 bytes of payload, plus
two. -/
theorem StopsAt_bound (L : Nat) :
    ∀ i : IPv6PayloadIterator, InSync i → i.payload.length = L →
      ∃ n err, n + 1 ≤ i.payload.length / 8 + 2 ∧ StopsAt n i err := by
  induction L using Nat.strong_induction_on with
  | _ L ih =>
    intro i hs hL
    have hT : Next ⟨59, none, [], false⟩ = some ((none, true, none), ⟨59, none, [], false⟩) :=
      Next_noNextHeader _ rfl rfl
    rcases Next_cases i hs with ⟨_, hn⟩ | ⟨_, _, hn⟩ | ⟨_, _, _, e, hn⟩ |
        ⟨_, _, a, l, rest, hp, hlen, hn⟩ | ⟨_, _, a, l, rest, m, off, hp, hlen, _, _, hn⟩
    · exact ⟨1, none, by omega, _, _, hn, _, _, _, hT, Or.inr rfl⟩
    · exact ⟨0, none, by omega, _, _, _, hn, Or.inr rfl⟩
    · exact ⟨0, some e, by omega, _, _, _, hn, Or.inl rfl⟩
    · have hj : (⟨a, some (rest.drop (l * 8 + 6)), rest.drop (l * 8 + 6), false⟩ :
          IPv6PayloadIterator).payload.length < L := by
        rw [← hL, hp]
        simp only [List.length_drop, List.length_cons]
        omega
      obtain ⟨n, err, hb, hst⟩ := ih _ hj _ (Or.inl rfl) rfl
      refine ⟨n + 1, err, ?_, _, _, hn, hst⟩
      rw [hp]
      simp only [List.length_drop, List.length_cons] at hb ⊢
      omega
    · have hj : (⟨a, some (rest.drop 6), rest.drop 6, m || decide (off ≠ 0)⟩ :
          IPv6PayloadIterator).payload.length < L := by
        rw [← hL, hp]
        simp only [List.length_drop, List.length_cons]
        omega
      obtain ⟨n, err, hb, hst⟩ := ih _ hj _ (Or.inl rfl) rfl
      refine ⟨n + 1, err, ?_, _, _, hn, hst⟩
      rw [hp]
      simp only [List.length_drop, List.length_cons] at hb ⊢
      omega

/-- The validating construction returns: the bound of its loop is never exhausted. -/
theorem MakeIPv6PayloadIterator_check (id : Nat) (p : List Nat) :
    ∃ n err, n + 1 ≤ p.length / 8 + 2 ∧ StopsAt n ⟨id, some p, p, false⟩ err ∧
      MakeIPv6PayloadIterator id p true = some (⟨id, some p, p, false⟩, err) := by
  obtain ⟨n, err, hb, hs⟩ := StopsAt_bound p.length ⟨id, some p, p, false⟩ (Or.inl rfl) rfl
  have hc := checkLoop_of_StopsAt n ⟨id, some p, p, false⟩ err (p.length + 2) hs
    (by simp only at hb; omega)
  exact ⟨n, err, hb, hs, by simp [MakeIPv6PayloadIterator, hc]⟩

/-- The accessor `ID` returns on a buffer of six bytes or more. -/
theorem ID_of_length (b : List Nat) (h : 6 ≤ b.length) : ∃ v, ID b = some v := by
  match b, h with
  | _ :: _ :: _ :: _ :: _ :: _ :: _, _ =>
    simp [ID, bigEndianUint32, ipv6FragmentExtHdrIdentificationOffset]

/-- The accessor `SegmentsLeft` returns on a buffer of two bytes or more. -/
theorem SegmentsLeft_of_length (b : List Nat) (h : 2 ≤ b.length) :
    ∃ s, SegmentsLeft b = some s := by
  match b, h with
  | _ :: _ :: _, _ => simp [SegmentsLeft]

/-- With a reader, at whatever position, `Next` returns. -/
theorem Next_of_reader (i : IPv6PayloadIterator) (r : List Nat) (hr : i.reader = some r) :
    ∃ res j, Next i = some (res, j) := by
  cases hf : i.forceRaw with
  | true => exact ⟨_, _, Next_forceRaw i hf⟩
  | false =>
    by_cases h59 : i.nextHdrIdentifier = 59
    · exact ⟨_, _, Next_noNextHeader i hf h59⟩
    by_cases h43 : i.nextHdrIdentifier = 43
    · match r, hr with
      | [], hr => exact ⟨_, _, Next_ext_nil i hf (Or.inl h43) hr⟩
      | [a], hr => exact ⟨_, _, Next_routing_one i hf h43 a hr⟩
      | a :: l :: rest, hr =>
        by_cases hlen : l * 8 + 6 ≤ rest.length
        · exact ⟨_, _, Next_routing_enough i hf h43 a l rest hr hlen⟩
        · exact ⟨_, _, Next_routing_short i hf h43 a l rest hr (by omega)⟩
    by_cases h44 : i.nextHdrIdentifier = 44
    · match r, hr with
      | [], hr => exact ⟨_, _, Next_ext_nil i hf (Or.inr h44) hr⟩
      | [a], hr => exact ⟨_, _, Next_fragment_one i hf h44 a hr⟩
      | a :: l :: rest, hr =>
        by_cases hlen : 6 ≤ rest.length
        · obtain ⟨m, off, _, _, hn⟩ := Next_fragment_enough i hf h44 a l rest hr hlen
          exact ⟨_, _, hn⟩
        · exact ⟨_, _, Next_fragment_short i hf h44 a l rest hr (by omega)⟩
    · exact ⟨_, _, Next_unrecognized i hf h43 h44 h59⟩

/-- On an iterator in sync `Next` returns. -/
theorem Next_of_inSync (i : IPv6PayloadIterator) (hs : InSync i) :
    ∃ res j, Next i = some (res, j) := by
  rcases hs with hs | ⟨_, _, hid, hf⟩
  · exact Next_of_reader i _ hs
  · exact ⟨_, _, Next_noNextHeader i hf hid⟩

/-- A call of `Next` leaves a suffix of the remaining payload. -/
theorem Next_payload_suffix (i : IPv6PayloadIterator) (hs : InSync i)
    (r : Option IPv6PayloadHeader × Bool × Option IterError) (j : IPv6PayloadIterator)
    (h : Next i = some (r, j)) : j.payload <:+ i.payload := by
  rcases Next_cases i hs with ⟨_, hn⟩ | ⟨_, _, hn⟩ | ⟨_, _, _, e, hn⟩ |
      ⟨_, _, a, l, rest, hp, _, hn⟩ | ⟨_, _, a, l, rest, m, off, hp, _, _, _, hn⟩ <;>
    rw [hn] at h <;> simp only [Option.some.injEq, Prod.mk.injEq] at h <;>
    obtain ⟨_, rfl⟩ := h
  · exact List.nil_suffix
  · exact List.suffix_refl _
  · exact List.nil_suffix
  · rw [hp]
    exact (List.drop_suffix _ rest).trans
      ((List.suffix_cons l rest).trans (List.suffix_cons a (l :: rest)))
  · rw [hp]
    exact (List.drop_suffix _ rest).trans
      ((List.suffix_cons l rest).trans (List.suffix_cons a (l :: rest)))

/-- An iterator reached from a payload is in sync and holds a suffix of that payload. -/
theorem ReachableFrom.inv {id : Nat} {p : List Nat} {i : IPv6PayloadIterator}
    (h : ReachableFrom id p i) : InSync i ∧ i.payload <:+ p := by
  induction h with
  | make check it err h =>
    rw [MakeIPv6PayloadIterator_fst id p check it err h]
    exact ⟨Or.inl rfl, List.suffix_refl _⟩
  | next i r j _ h ih =>
    exact ⟨InSync_Next i ih.1 r j h, (Next_payload_suffix i ih.1 r j h).trans ih.2⟩
  | asRawHeader i _ _ => exact ⟨Or.inr ⟨rfl, rfl, rfl, rfl⟩, List.nil_suffix⟩

/-- Where the bytes of a returned header lie in the remaining payload. -/
theorem Next_header_bytes (i : IPv6PayloadIterator) (hs : InSync i)
    (h : IPv6PayloadHeader) (d : Bool) (e : Option IterError) (j : IPv6PayloadIterator)
    (hn : Next i = some ((some h, d, e), j)) :
    (∀ r, h = IPv6PayloadHeader.raw r → r.Buf = i.payload ∧ j = ⟨59, none, [], false⟩) ∧
    (∀ b, h = IPv6PayloadHeader.routing b →
      6 ≤ b.length ∧ ∃ pre, pre.length = 2 ∧ i.payload = pre ++ b ++ j.payload) ∧
    (∀ b, h = IPv6PayloadHeader.fragment b →
      b.length = 6 ∧ ∃ pre, pre.length = 2 ∧ i.payload = pre ++ b ++ j.payload) := by
  rcases Next_cases i hs with ⟨_, hc⟩ | ⟨_, _, hc⟩ | ⟨_, _, _, e, hc⟩ |
      ⟨_, _, a, l, rest, hp, hlen, hc⟩ | ⟨_, _, a, l, rest, m, off, hp, hlen, _, _, hc⟩ <;>
    rw [hc] at hn <;>
    simp only [Option.some.injEq, Prod.mk.injEq, reduceCtorEq, false_and, and_false] at hn
  · obtain ⟨⟨rfl, _, _⟩, rfl⟩ := hn
    simp
  · obtain ⟨⟨rfl, _, _⟩, rfl⟩ := hn
    refine ⟨by simp, ?_, by simp⟩
    intro b hb
    simp only [IPv6PayloadHeader.routing.injEq] at hb
    subst hb
    refine ⟨by simp; omega, [a, l], rfl, ?_⟩
    rw [hp]
    simp
  · obtain ⟨⟨rfl, _, _⟩, rfl⟩ := hn
    refine ⟨by simp, by simp, ?_⟩
    intro b hb
    simp only [IPv6PayloadHeader.fragment.injEq] at hb
    subst hb
    refine ⟨by simp; omega, [a, l], rfl, ?_⟩
    rw [hp]
    simp

/-- On bytes, the big-endian 16-bit value is `256 * b0 + b1`. -/
theorem bigEndianUint16_eq (b0 b1 : Nat) (tl : List Nat) (h0 : b0 < 256) (h1 : b1 < 256) :
    bigEndianUint16 (b0 :: b1 :: tl) = some (256 * b0 + b1) := by
  have e : b1 ||| (b0 <<< 8) = 256 * b0 + b1 := by
    rw [Nat.or_comm, Nat.shiftLeft_eq, Nat.mul_comm b0 (2 ^ 8)]
    exact (Nat.mul_add_lt_is_or (by simpa using h1) b0).symm
  simp only [bigEndianUint16, List.getElem?_cons_succ, List.getElem?_cons_zero, e]
  congr 1
  omega

/-- On bytes, the big-endian 32-bit value is the base-256 number of the four bytes. -/
theorem bigEndianUint32_eq (b0 b1 b2 b3 : Nat) (tl : List Nat) (h0 : b0 < 256)
    (h1 : b1 < 256) (h2 : b2 < 256) (h3 : b3 < 256) :
    bigEndianUint32 (b0 :: b1 :: b2 :: b3 :: tl) =
      some (b0 * 2 ^ 24 + b1 * 2 ^ 16 + b2 * 2 ^ 8 + b3) := by
  have e1 : b3 ||| (b2 <<< 8) = 2 ^ 8 * b2 + b3 := by
    rw [Nat.or_comm, Nat.shiftLeft_eq, Nat.mul_comm b2 (2 ^ 8)]
    exact (Nat.mul_add_lt_is_or (by simpa using h3) b2).symm
  have e2 : (2 ^ 8 * b2 + b3) ||| (b1 <<< 16) = 2 ^ 16 * b1 + (2 ^ 8 * b2 + b3) := by
    rw [Nat.or_comm, Nat.shiftLeft_eq, Nat.mul_comm b1 (2 ^ 16)]
    exact (Nat.mul_add_lt_is_or (by norm_num; omega) b1).symm
  have e3 : (2 ^ 16 * b1 + (2 ^ 8 * b2 + b3)) ||| (b0 <<< 24) =
      2 ^ 24 * b0 + (2 ^ 16 * b1 + (2 ^ 8 * b2 + b3)) := by
    rw [Nat.or_comm, Nat.shiftLeft_eq, Nat.mul_comm b0 (2 ^ 24)]
    exact (Nat.mul_add_lt_is_or (by norm_num; omega) b0).symm
  simp only [bigEndianUint32, List.getElem?_cons_succ, List.getElem?_cons_zero, e1, e2, e3]
  congr 1
  norm_num
  omega

/-! ## Properties of the iterator -/

/-- C1: after a successful call of `Next` on a reachable iterator (a header, not done, no
error) the `forceRaw` flag is set exactly when the header returned is a Fragment header
whose More flag is set or whose Fragment Offset is not zero. After a Fragment header with
More clear and offset zero the flag is clear, the next identifier is the first byte of the
header just consumed, and the following call dispatches on it: done at NoNextHeader, the
raw remainder at an unrecognised identifier, a Routing header at 43 over a complete
Routing header. -/
theorem C1_forceRaw_iff_fragmented (i : IPv6PayloadIterator) (hi : Reachable i)
    (h : IPv6PayloadHeader) (j : IPv6PayloadIterator)
    (hnext : Next i = some ((some h, false, none), j)) :
    (j.forceRaw = true ↔ ∃ b, h = IPv6PayloadHeader.fragment b ∧
        (More b = some true ∨ ∃ off, FragmentOffset b = some off ∧ off ≠ 0)) ∧
    (∀ b, h = IPv6PayloadHeader.fragment b → More b = some false →
      FragmentOffset b = some 0 →
        j.forceRaw = false ∧ i.payload[0]? = some j.nextHdrIdentifier ∧
        (j.nextHdrIdentifier = 59 → Next j = some ((none, true, none), j)) ∧
        (j.nextHdrIdentifier ≠ 43 → j.nextHdrIdentifier ≠ 44 → j.nextHdrIdentifier ≠ 59 →
          Next j = some ((some (IPv6PayloadHeader.raw ⟨j.nextHdrIdentifier, j.payload⟩),
            false, none), ⟨59, none, [], false⟩)) ∧
        (j.nextHdrIdentifier = 43 → ∀ a l rest, j.payload = a :: l :: rest →
          l * 8 + 6 ≤ rest.length →
            Next j = some ((some (IPv6PayloadHeader.routing (rest.take (l * 8 + 6))),
              false, none), ⟨a, some (rest.drop (l * 8 + 6)), rest.drop (l * 8 + 6), false⟩))) := by
  rcases Next_cases i hi.inSync with ⟨_, hn⟩ | ⟨_, _, hn⟩ | ⟨_, _, _, e, hn⟩ |
      ⟨_, _, a, l, rest, _, _, hn⟩ | ⟨_, _, a, l, rest, m, off, hp, _, hm, hoff, hn⟩ <;>
    rw [hn] at hnext <;>
    simp only [Option.some.injEq, Prod.mk.injEq, and_true, true_and, reduceCtorEq,
      false_and, and_false] at hnext
  · obtain ⟨rfl, rfl⟩ := hnext
    simp
  · obtain ⟨rfl, rfl⟩ := hnext
    simp
  · obtain ⟨rfl, rfl⟩ := hnext
    constructor
    · constructor
      · intro hf
        refine ⟨_, rfl, ?_⟩
        simp only [Bool.or_eq_true, decide_eq_true_eq] at hf
        rcases hf with hf | hf
        · exact Or.inl (by rw [hm, hf])
        · exact Or.inr ⟨off, hoff, hf⟩
      · rintro ⟨b, hb, hc⟩
        simp only [IPv6PayloadHeader.fragment.injEq] at hb
        subst hb
        simp only [Bool.or_eq_true, decide_eq_true_eq]
        rcases hc with hc | ⟨o, ho, hne⟩
        · left; rw [hm] at hc; exact Option.some.inj hc
        · right; rw [hoff] at ho; rw [Option.some.inj ho]; exact hne
    · intro b hb hmb hob
      simp only [IPv6PayloadHeader.fragment.injEq] at hb
      subst hb
      rw [hm] at hmb
      rw [hoff] at hob
      obtain rfl := Option.some.inj hmb
      obtain rfl := Option.some.inj hob
      refine ⟨by simp, by simp [hp], ?_, ?_, ?_⟩
      · intro h59
        exact Next_noNextHeader _ (by simp) h59
      · intro h43 h44 h59
        exact Next_unrecognized _ (by simp) h43 h44 h59
      · intro h43 a2 l2 rest2 hp2 hlen2
        simp only at hp2 h43
        have := Next_routing_enough ⟨a, some (List.drop 6 rest), List.drop 6 rest,
          false || decide (0 ≠ 0)⟩ (by simp) h43 a2 l2 rest2 (by simp [hp2]) hlen2
        rw [this]
        simp [hp2]

/-- C1 at a Fragment header with More clear and offset zero, followed by a Routing
header. -/
theorem C1_witness :
    Reachable ⟨44, some [43, 0, 0, 0, 1, 2, 3, 4, 59, 0, 5, 6, 0, 0, 0, 0],
      [43, 0, 0, 0, 1, 2, 3, 4, 59, 0, 5, 6, 0, 0, 0, 0], false⟩ ∧
    Next ⟨44, some [43, 0, 0, 0, 1, 2, 3, 4, 59, 0, 5, 6, 0, 0, 0, 0],
        [43, 0, 0, 0, 1, 2, 3, 4, 59, 0, 5, 6, 0, 0, 0, 0], false⟩ =
      some ((some (IPv6PayloadHeader.fragment [0, 0, 1, 2, 3, 4]), false, none),
        ⟨43, some [59, 0, 5, 6, 0, 0, 0, 0], [59, 0, 5, 6, 0, 0, 0, 0], false⟩) ∧
    Next ⟨43, some [59, 0, 5, 6, 0, 0, 0, 0], [59, 0, 5, 6, 0, 0, 0, 0], false⟩ =
      some ((some (IPv6PayloadHeader.routing [5, 6, 0, 0, 0, 0]), false, none),
        ⟨59, some [], [], false⟩) :=
  ⟨Reachable.make 44 _ false _ none rfl, by decide,
    ((C1_forceRaw_iff_fragmented
      ⟨44, some [43, 0, 0, 0, 1, 2, 3, 4, 59, 0, 5, 6, 0, 0, 0, 0],
        [43, 0, 0, 0, 1, 2, 3, 4, 59, 0, 5, 6, 0, 0, 0, 0], false⟩
      (Reachable.make 44 _ false _ none rfl)
      (IPv6PayloadHeader.fragment [0, 0, 1, 2, 3, 4])
      ⟨43, some [59, 0, 5, 6, 0, 0, 0, 0], [59, 0, 5, 6, 0, 0, 0, 0], false⟩
      (by decide)).2 _ rfl (by decide) (by decide)).2.2.2.2 rfl 59 0 [5, 6, 0, 0, 0, 0] rfl
      (by decide)⟩

/-- C2: over a payload of at least 8 bytes starting at a Fragment header whose body has
the More flag set or a Fragment Offset other than zero, the first call of `Next` returns
the Fragment header, the second returns one raw header with the payload after its first
8 bytes and payload byte 0 as identifier, whatever these are, and the third reports done
with no header and no error. -/
theorem C2_fragmented_then_raw (p : List Nat) (check : Bool) (it : IPv6PayloadIterator)
    (err : Option IterError) (hlen : 8 ≤ p.length)
    (hfrag : More ((p.drop 2).take 6) = some true ∨
      ∃ off, FragmentOffset ((p.drop 2).take 6) = some off ∧ off ≠ 0)
    (hmake : MakeIPv6PayloadIterator 44 p check = some (it, err)) :
    ∃ a i1 i2, p[0]? = some a ∧
      Next it = some ((some (IPv6PayloadHeader.fragment ((p.drop 2).take 6)), false, none),
        i1) ∧
      Next i1 = some ((some (IPv6PayloadHeader.raw ⟨a, p.drop 8⟩), false, none), i2) ∧
      Next i2 = some ((none, true, none), i2) := by
  rw [MakeIPv6PayloadIterator_fst 44 p check it err hmake]
  match p, hlen with
  | a :: l :: rest, hlen =>
    simp only [List.length_cons] at hlen
    obtain ⟨m, off, hm, hoff, hn⟩ := Next_fragment_enough
      ⟨44, some (a :: l :: rest), a :: l :: rest, false⟩ rfl rfl a l rest rfl (by omega)
    have hforce : (m || decide (off ≠ 0)) = true := by
      simp only [List.drop_succ_cons, List.drop_zero] at hfrag
      simp only [Bool.or_eq_true, decide_eq_true_eq]
      rcases hfrag with hc | ⟨o, ho, hne⟩
      · left; rw [hm] at hc; exact Option.some.inj hc
      · right; rw [hoff] at ho; rw [Option.some.inj ho]; exact hne
    refine ⟨a, ⟨a, some (rest.drop 6), rest.drop 6, true⟩, ⟨59, none, [], false⟩, rfl, ?_, ?_,
      Next_noNextHeader _ rfl rfl⟩
    · rw [hn, hforce]; rfl
    · rw [Next_forceRaw _ rfl]
      simp

/-- C2 at a Fragment header with the More flag set whose Next Header field names a
Routing header. -/
theorem C2_witness :
    ∃ a i1 i2, [43, 7, 0, 1, 1, 2, 3, 4, 59, 0][0]? = some a ∧
      Next ⟨44, some [43, 7, 0, 1, 1, 2, 3, 4, 59, 0], [43, 7, 0, 1, 1, 2, 3, 4, 59, 0], false⟩ =
        some ((some (IPv6PayloadHeader.fragment
          (([43, 7, 0, 1, 1, 2, 3, 4, 59, 0].drop 2).take 6)), false, none), i1) ∧
      Next i1 = some ((some (IPv6PayloadHeader.raw
        ⟨a, [43, 7, 0, 1, 1, 2, 3, 4, 59, 0].drop 8⟩), false, none), i2) ∧
      Next i2 = some ((none, true, none), i2) :=
  C2_fragmented_then_raw [43, 7, 0, 1, 1, 2, 3, 4, 59, 0] false _ none (by decide)
    (Or.inl (by decide)) rfl

/-- C3: with next identifier Routing, `forceRaw` clear and `L` the second byte of the
remaining payload `p`, if `p` has at least `2 + L*8 + 6` bytes then `Next` succeeds, the
remaining payload afterwards is `p` without its first `2 + L*8 + 6 = 8 + 8*L` bytes, and
the next identifier is the first byte of `p`. -/
theorem C3_routing_length_law (p : List Nat) (a L : Nat) (h0 : p[0]? = some a)
    (h1 : p[1]? = some L) (hlen : 2 + L * 8 + 6 ≤ p.length) :
    ∃ h j, Next ⟨43, some p, p, false⟩ = some ((some h, false, none), j) ∧
      j.payload = p.drop (2 + L * 8 + 6) ∧ j.payload = p.drop (8 + 8 * L) ∧
      j.payload.length + (2 + L * 8 + 6) = p.length ∧ j.nextHdrIdentifier = a := by
  match p, h0, h1, hlen with
  | x :: y :: rest, h0, h1, hlen =>
    simp only [List.getElem?_cons_zero, List.getElem?_cons_succ, Option.some.injEq,
      List.length_cons] at h0 h1 hlen
    subst h0 h1
    have hd : ∀ n, n = (y * 8 + 6) + 2 →
        List.drop n (x :: y :: rest) = rest.drop (y * 8 + 6) := by
      intro n hn
      subst hn
      rfl
    have hn := Next_routing_enough ⟨43, some (x :: y :: rest), x :: y :: rest, false⟩
      rfl rfl x y rest rfl (by omega)
    refine ⟨_, ⟨x, some (rest.drop (y * 8 + 6)), rest.drop (y * 8 + 6), false⟩,
      by rw [hn]; rfl, (hd _ (by omega)).symm, (hd _ (by omega)).symm, ?_, rfl⟩
    simp only [List.length_drop, List.length_cons]
    omega

/-- C3 at a Routing header of Length 1, 16 bytes, followed by one more byte. -/
theorem C3_witness :
    ∃ h j, Next ⟨43, some [44, 1, 0, 0, 0, 0, 0, 0, 1, 2, 3, 4, 5, 6, 7, 8, 9],
        [44, 1, 0, 0, 0, 0, 0, 0, 1, 2, 3, 4, 5, 6, 7, 8, 9], false⟩ =
        some ((some h, false, none), j) ∧
      j.payload = [44, 1, 0, 0, 0, 0, 0, 0, 1, 2, 3, 4, 5, 6, 7, 8, 9].drop (2 + 1 * 8 + 6) ∧
      j.payload = [44, 1, 0, 0, 0, 0, 0, 0, 1, 2, 3, 4, 5, 6, 7, 8, 9].drop (8 + 8 * 1) ∧
      j.payload.length + (2 + 1 * 8 + 6) =
        [44, 1, 0, 0, 0, 0, 0, 0, 1, 2, 3, 4, 5, 6, 7, 8, 9].length ∧
      j.nextHdrIdentifier = 44 :=
  C3_routing_length_law [44, 1, 0, 0, 0, 0, 0, 0, 1, 2, 3, 4, 5, 6, 7, 8, 9] 44 1 rfl rfl
    (by decide)

/-- C4: with next identifier Fragment and `forceRaw` clear over a remaining payload `p`
of at least 8 bytes, `Next` succeeds, returns a Fragment header backed by the 6 bytes
`p[2..8)`, leaves `p` without its first 8 bytes and the first byte of `p` as next
identifier; the Reserved byte has no effect: replacing byte 1 by any value gives the same
result and the same iterator. -/
theorem C4_fragment_fixed_size (p : List Nat) (hlen : 8 ≤ p.length) :
    ∃ a, p[0]? = some a ∧ ((p.drop 2).take 6).length = 6 ∧
      (∃ f, Next ⟨44, some p, p, false⟩ =
        some ((some (IPv6PayloadHeader.fragment ((p.drop 2).take 6)), false, none),
          ⟨a, some (p.drop 8), p.drop 8, f⟩)) ∧
      ∀ r, Next ⟨44, some (p.set 1 r), p.set 1 r, false⟩ = Next ⟨44, some p, p, false⟩ := by
  match p, hlen with
  | a :: l :: rest, hlen =>
    simp only [List.length_cons] at hlen
    have key : ∀ l2, ∃ m off, More (rest.take 6) = some m ∧
        FragmentOffset (rest.take 6) = some off ∧
        Next ⟨44, some (a :: l2 :: rest), a :: l2 :: rest, false⟩ =
          some ((some (IPv6PayloadHeader.fragment (rest.take 6)), false, none),
            ⟨a, some (rest.drop 6), rest.drop 6, m || decide (off ≠ 0)⟩) := by
      intro l2
      obtain ⟨m, off, hm, hoff, hn⟩ := Next_fragment_enough
        ⟨44, some (a :: l2 :: rest), a :: l2 :: rest, false⟩ rfl rfl a l2 rest rfl (by omega)
      exact ⟨m, off, hm, hoff, by rw [hn]; rfl⟩
    obtain ⟨m, off, hm, hoff, hn⟩ := key l
    refine ⟨a, rfl, by simp; omega, ⟨m || decide (off ≠ 0), by rw [hn]; rfl⟩, ?_⟩
    intro r
    obtain ⟨m2, off2, hm2, hoff2, hn2⟩ := key r
    rw [hm] at hm2
    rw [hoff] at hoff2
    obtain rfl := Option.some.inj hm2
    obtain rfl := Option.some.inj hoff2
    simp only [List.set_cons_succ, List.set_cons_zero]
    rw [hn, hn2]

/-- C4 at a Fragment header with Reserved byte 255, followed by one more byte. -/
theorem C4_witness :
    ∃ a, [59, 255, 0, 0, 9, 9, 9, 9, 1][0]? = some a ∧
      (([59, 255, 0, 0, 9, 9, 9, 9, 1].drop 2).take 6).length = 6 ∧
      (∃ f, Next ⟨44, some [59, 255, 0, 0, 9, 9, 9, 9, 1], [59, 255, 0, 0, 9, 9, 9, 9, 1], false⟩ =
        some ((some (IPv6PayloadHeader.fragment
          (([59, 255, 0, 0, 9, 9, 9, 9, 1].drop 2).take 6)), false, none),
          ⟨a, some ([59, 255, 0, 0, 9, 9, 9, 9, 1].drop 8),
            [59, 255, 0, 0, 9, 9, 9, 9, 1].drop 8, f⟩)) ∧
      ∀ r, Next ⟨44, some ([59, 255, 0, 0, 9, 9, 9, 9, 1].set 1 r),
          [59, 255, 0, 0, 9, 9, 9, 9, 1].set 1 r, false⟩ =
        Next ⟨44, some [59, 255, 0, 0, 9, 9, 9, 9, 1], [59, 255, 0, 0, 9, 9, 9, 9, 1], false⟩ :=
  C4_fragment_fixed_size [59, 255, 0, 0, 9, 9, 9, 9, 1] (by decide)

/-- C5 fails on the payload 59, 0, 7, 9, 0, 0, 0, 0: the Routing header returned is the
6-byte body 7, 9, 0, 0, 0, 0 and not the first 8 bytes of the payload, and its
`SegmentsLeft` is 9, payload byte 3, while payload byte 1 is 0. -/
theorem C5_counterexample :
    [59, 0, 7, 9, 0, 0, 0, 0][1]? = some 0 ∧
    Next ⟨43, some [59, 0, 7, 9, 0, 0, 0, 0], [59, 0, 7, 9, 0, 0, 0, 0], false⟩ =
      some ((some (IPv6PayloadHeader.routing [7, 9, 0, 0, 0, 0]), false, none),
        ⟨59, some [], [], false⟩) ∧
    [7, 9, 0, 0, 0, 0] ≠ List.take (8 + 8 * 0) [59, 0, 7, 9, 0, 0, 0, 0] ∧
    SegmentsLeft [7, 9, 0, 0, 0, 0] = some 9 ∧
    SegmentsLeft [7, 9, 0, 0, 0, 0] ≠ [59, 0, 7, 9, 0, 0, 0, 0][1]? := by
  decide

/-- C5, amended: a successful call of `Next` on next identifier Routing over the remaining
payload `p` with `L = p[1]` returns a Routing header backed by the body of the extension
header, the bytes after the Next Header and Length bytes: exactly `p[2 .. 8 + 8*L)`, of
length `6 + 8*L`, so that `SegmentsLeft`, the byte at offset 1 of the backing slice, is
`p[3]`. -/
theorem C5_routing_backed_by_body (p : List Nat) (L : Nat) (hL : p[1]? = some L)
    (h : Option IPv6PayloadHeader) (j : IPv6PayloadIterator)
    (hnext : Next ⟨43, some p, p, false⟩ = some ((h, false, none), j)) :
    h = some (IPv6PayloadHeader.routing ((p.drop 2).take (6 + 8 * L))) ∧
    ((p.drop 2).take (6 + 8 * L)).length = 6 + 8 * L ∧
    ∃ s, p[3]? = some s ∧ SegmentsLeft ((p.drop 2).take (6 + 8 * L)) = some s := by
  match p, hL with
  | x :: y :: rest, hL =>
    simp only [List.getElem?_cons_succ, List.getElem?_cons_zero, Option.some.injEq] at hL
    subst hL
    have e : 6 + 8 * y = y * 8 + 6 := by omega
    rw [e]
    by_cases hlen : y * 8 + 6 ≤ rest.length
    · rw [Next_routing_enough ⟨43, some (x :: y :: rest), x :: y :: rest, false⟩
        rfl rfl x y rest rfl hlen] at hnext
      simp only [Option.some.injEq, Prod.mk.injEq, and_true, true_and] at hnext
      refine ⟨hnext.1.symm, by simp; omega, ?_⟩
      match rest, hlen with
      | r0 :: r1 :: tl, _ =>
        refine ⟨r1, by simp, ?_⟩
        simp [SegmentsLeft, List.take_succ_cons]
    · rw [Next_routing_short ⟨43, some (x :: y :: rest), x :: y :: rest, false⟩
        rfl rfl x y rest rfl (by omega)] at hnext
      simp at hnext

/-- C5, amended, at the payload 59, 0, 7, 9, 0, 0, 0, 0. -/
theorem C5_witness :
    some (IPv6PayloadHeader.routing [7, 9, 0, 0, 0, 0]) =
      some (IPv6PayloadHeader.routing (([59, 0, 7, 9, 0, 0, 0, 0].drop 2).take (6 + 8 * 0))) ∧
    (([59, 0, 7, 9, 0, 0, 0, 0].drop 2).take (6 + 8 * 0)).length = 6 + 8 * 0 ∧
    ∃ s, [59, 0, 7, 9, 0, 0, 0, 0][3]? = some s ∧
      SegmentsLeft (([59, 0, 7, 9, 0, 0, 0, 0].drop 2).take (6 + 8 * 0)) = some s :=
  C5_routing_backed_by_body [59, 0, 7, 9, 0, 0, 0, 0] 0 rfl
    (some (IPv6PayloadHeader.routing [7, 9, 0, 0, 0, 0])) ⟨59, some [], [], false⟩ (by decide)

/-- C6 fails: over the payload 0x3B, 0x05, 0, 0, 0, 0, 0, 0 with starting identifier
Routing the first call of `Next` returns no Routing header but an error, byte 1 being the
Length field: 6 of the 46 data bytes a Length of 5 asks for were read. -/
theorem C6_counterexample :
    MakeIPv6PayloadIterator 43 [0x3B, 0x05, 0, 0, 0, 0, 0, 0] false =
      some (⟨43, some [0x3B, 0x05, 0, 0, 0, 0, 0, 0], [0x3B, 0x05, 0, 0, 0, 0, 0, 0], false⟩,
        none) ∧
    Next ⟨43, some [0x3B, 0x05, 0, 0, 0, 0, 0, 0], [0x3B, 0x05, 0, 0, 0, 0, 0, 0], false⟩ =
      some ((none, true, some (IterError.headerData 6 46 5 43 ReadError.EOF)),
        ⟨43, some [], [], false⟩) := by
  decide

/-- C6, amended: over the payload 0x3B, 0x05, 0, 0, 0, 0, 0, 0 with starting identifier
Routing the first call of `Next` returns an error with no header and done (byte 1 is the
Length field, and a Length of 5 asks for 46 data bytes where 6 are left); over the payload
0x3B, 0x00, 0, 0x05, 0, 0, 0, 0, of Length 0 and with 5 at byte 3, the first call returns a
Routing header whose `SegmentsLeft` is 5, the next identifier is 0x3B, and the second call
reports done with no error. -/
theorem C6_example_routing :
    (∀ check, ∃ err, MakeIPv6PayloadIterator 43 [0x3B, 0x05, 0, 0, 0, 0, 0, 0] check =
      some (⟨43, some [0x3B, 0x05, 0, 0, 0, 0, 0, 0], [0x3B, 0x05, 0, 0, 0, 0, 0, 0], false⟩,
        err)) ∧
    Next ⟨43, some [0x3B, 0x05, 0, 0, 0, 0, 0, 0], [0x3B, 0x05, 0, 0, 0, 0, 0, 0], false⟩ =
      some ((none, true, some (IterError.headerData 6 46 5 43 ReadError.EOF)),
        ⟨43, some [], [], false⟩) ∧
    (∀ check, MakeIPv6PayloadIterator 43 [0x3B, 0x00, 0, 0x05, 0, 0, 0, 0] check =
      some (⟨43, some [0x3B, 0x00, 0, 0x05, 0, 0, 0, 0], [0x3B, 0x00, 0, 0x05, 0, 0, 0, 0], false⟩,
        none)) ∧
    Next ⟨43, some [0x3B, 0x00, 0, 0x05, 0, 0, 0, 0], [0x3B, 0x00, 0, 0x05, 0, 0, 0, 0], false⟩ =
      some ((some (IPv6PayloadHeader.routing [0, 0x05, 0, 0, 0, 0]), false, none),
        ⟨0x3B, some [], [], false⟩) ∧
    SegmentsLeft [0, 0x05, 0, 0, 0, 0] = some 5 ∧
    Next ⟨0x3B, some [], [], false⟩ = some ((none, true, none), ⟨0x3B, some [], [], false⟩) := by
  refine ⟨?_, by decide, ?_, by decide, by decide, by decide⟩
  · intro check
    cases check
    · exact ⟨none, by decide⟩
    · exact ⟨some (IterError.headerData 6 46 5 43 ReadError.EOF), by decide⟩
  · intro check
    cases check <;> decide

/-- C7, the code at a one-byte payload: for a Routing header (43) the error names the
Reserved field, and for a Fragment header (44) it names the Length field; the identifier
in the error is the one being parsed. -/
theorem C7_truncated_length_field_error :
    Next ⟨43, some [0x3B], [0x3B], false⟩ =
      some ((none, true, some (IterError.reservedField 43 ReadError.EOF)),
        ⟨43, some [], [], false⟩) ∧
    Next ⟨44, some [0x3B], [0x3B], false⟩ =
      some ((none, true, some (IterError.lengthField 44 ReadError.EOF)),
        ⟨44, some [], [], false⟩) := by
  decide

/-- C8: with `forceRaw` clear and next identifier Routing or Fragment over the remaining
payload `p`, `Next` returns an error exactly when `p` is shorter than the header: fewer
than 2 bytes, or fewer than `8 + 8 * p[1]` for Routing, or fewer than 8 for Fragment. An
error always comes with no header and done. With `forceRaw` set, or any other next
identifier, `Next` returns without an error. -/
theorem C8_error_iff_shortfall (id : Nat) (p : List Nat) (hid : id = 43 ∨ id = 44) :
    ((∃ h d e j, Next ⟨id, some p, p, false⟩ = some ((h, d, some e), j)) ↔
      (p.length < 2 ∨ (id = 43 ∧ p.length < 8 + 8 * p.getD 1 0) ∨ (id = 44 ∧ p.length < 8))) ∧
    (∀ i h d e j, Next i = some ((h, d, some e), j) → h = none ∧ d = true) ∧
    (∀ i, (i.forceRaw = true ∨ (i.nextHdrIdentifier ≠ 43 ∧ i.nextHdrIdentifier ≠ 44)) →
      ∃ h d j, Next i = some ((h, d, none), j)) := by
  refine ⟨?_, ?_, ?_⟩
  · rcases Next_cases ⟨id, some p, p, false⟩ (Or.inl rfl) with ⟨hc, _⟩ | ⟨_, h59, _⟩ |
        ⟨_, _, hshort, e, hn⟩ | ⟨_, h43, a, l, rest, hp, hlen, hn⟩ |
        ⟨_, h44, a, l, rest, m, off, hp, hlen, _, _, hn⟩
    · simp only [Bool.false_eq_true, false_or] at hc
      rcases hid with rfl | rfl
      · exact absurd rfl hc.1
      · exact absurd rfl hc.2.1
    · simp only at h59
      rcases hid with rfl | rfl <;> simp at h59
    · exact ⟨fun _ => hshort, fun _ => ⟨_, _, e, _, hn⟩⟩
    · simp only at hp h43
      subst hp h43
      constructor
      · rintro ⟨h, d, e, j, he⟩
        rw [hn] at he
        simp at he
      · simp only [List.length_cons, List.getD_cons_succ, List.getD_cons_zero]
        intro hs
        omega
    · simp only at hp h44
      subst hp h44
      constructor
      · rintro ⟨h, d, e, j, he⟩
        rw [hn] at he
        simp at he
      · simp only [List.length_cons]
        intro hs
        omega
  · intro i h d e j hn
    have := Next_error_shape i h d e j hn
    exact ⟨this.1, this.2.1⟩
  · intro i hi
    cases hf : i.forceRaw with
    | true => exact ⟨_, _, _, Next_forceRaw i hf⟩
    | false =>
      rw [hf] at hi
      simp only [Bool.false_eq_true, false_or] at hi
      by_cases h59 : i.nextHdrIdentifier = 59
      · exact ⟨_, _, _, Next_noNextHeader i hf h59⟩
      · exact ⟨_, _, _, Next_unrecognized i hf hi.1 hi.2 h59⟩

/-- C8 at a one-byte payload with next identifier Routing. -/
theorem C8_witness :
    (43 = 43 ∨ 43 = 44) ∧
    ∃ h d e j, Next ⟨43, some [59], [59], false⟩ = some ((h, d, some e), j) :=
  ⟨Or.inl rfl, (C8_error_iff_shortfall 43 [59] (Or.inl rfl)).1.2 (Or.inl (by decide))⟩

/-- C9: for a starting identifier other than Routing, Fragment and NoNextHeader, over
any payload, the first call of `Next` returns a raw header with the whole payload and the
starting identifier, and the second call reports done with no header and no error. -/
theorem C9_unrecognized_start (id : Nat) (p : List Nat) (check : Bool)
    (it : IPv6PayloadIterator) (err : Option IterError)
    (h43 : id ≠ 43) (h44 : id ≠ 44) (h59 : id ≠ 59)
    (hmake : MakeIPv6PayloadIterator id p check = some (it, err)) :
    ∃ j, Next it = some ((some (IPv6PayloadHeader.raw ⟨id, p⟩), false, none), j) ∧
      Next j = some ((none, true, none), j) := by
  rw [MakeIPv6PayloadIterator_fst id p check it err hmake]
  exact ⟨⟨59, none, [], false⟩, Next_unrecognized _ rfl h43 h44 h59,
    Next_noNextHeader _ rfl rfl⟩

/-- C9 at starting identifier 6 over three bytes. -/
theorem C9_witness :
    ∃ j, Next ⟨6, some [1, 2, 3], [1, 2, 3], false⟩ =
        some ((some (IPv6PayloadHeader.raw ⟨6, [1, 2, 3]⟩), false, none), j) ∧
      Next j = some ((none, true, none), j) :=
  C9_unrecognized_start 6 [1, 2, 3] false _ none (by decide) (by decide) (by decide) rfl

/-- C10: an iterator with starting identifier NoNextHeader reports done, with no header
and no error, at its first call of `Next` and at every later one; and once a call of
`Next` on a reachable iterator reports done without error, it has returned no header and
left the iterator unchanged, and every later call reports done again. -/
theorem C10_done_is_absorbing :
    (∀ p check it err, MakeIPv6PayloadIterator 59 p check = some (it, err) →
      ∀ n, NextN n it = some it ∧ Next it = some ((none, true, none), it)) ∧
    (∀ i, Reachable i → ∀ h j, Next i = some ((h, true, none), j) →
      h = none ∧ j = i ∧ ∀ n, NextN n j = some j ∧ Next j = some ((none, true, none), j)) := by
  constructor
  · intro p check it err hmake n
    rw [MakeIPv6PayloadIterator_fst 59 p check it err hmake]
    have hd := Next_noNextHeader ⟨59, some p, p, false⟩ rfl rfl
    exact ⟨NextN_done _ hd n, hd⟩
  · intro i hi h j hn
    rcases Next_cases i hi.inSync with ⟨_, hc⟩ | ⟨_, _, hc⟩ | ⟨_, _, _, e, hc⟩ |
        ⟨_, _, a, l, rest, _, _, hc⟩ | ⟨_, _, a, l, rest, m, off, _, _, _, _, hc⟩ <;>
      rw [hc] at hn <;>
      simp only [Option.some.injEq, Prod.mk.injEq, and_true, true_and, reduceCtorEq,
        false_and, and_false, Bool.false_eq_true] at hn
    obtain ⟨rfl, rfl⟩ := hn
    exact ⟨rfl, rfl, fun n => ⟨NextN_done _ hc n, hc⟩⟩

/-- C10 at starting identifier NoNextHeader, and at the iterator left by a raw header. -/
theorem C10_witness :
    (NextN 5 ⟨59, some [1, 2], [1, 2], false⟩ = some ⟨59, some [1, 2], [1, 2], false⟩ ∧
      Next ⟨59, some [1, 2], [1, 2], false⟩ =
        some ((none, true, none), ⟨59, some [1, 2], [1, 2], false⟩)) ∧
    (NextN 4 ⟨59, none, [], false⟩ = some ⟨59, none, [], false⟩ ∧
      Next ⟨59, none, [], false⟩ = some ((none, true, none), ⟨59, none, [], false⟩)) :=
  ⟨C10_done_is_absorbing.1 [1, 2] false _ none rfl 5,
    (C10_done_is_absorbing.2 ⟨59, none, [], false⟩
      (Reachable.next ⟨6, some [7], [7], false⟩ _ _ (Reachable.make 6 [7] false _ none rfl)
        (by decide : Next ⟨6, some [7], [7], false⟩ =
          some ((some (IPv6PayloadHeader.raw ⟨6, [7]⟩), false, none), ⟨59, none, [], false⟩)))
      none _ (by decide : Next ⟨59, none, [], false⟩ =
        some ((none, true, none), ⟨59, none, [], false⟩))).2.2 4⟩

/-- C11: for every iterator, whatever its `forceRaw`, `AsRawHeader` returns the raw header
with the next identifier and the remaining payload, and leaves next identifier
NoNextHeader, an empty payload and `forceRaw` clear; a second `AsRawHeader` returns an
empty raw header with identifier NoNextHeader, and every later call of `Next` reports done
with no header and no error. -/
theorem C11_AsRawHeader (i : IPv6PayloadIterator) :
    (AsRawHeader i).1 = ⟨i.nextHdrIdentifier, i.payload⟩ ∧
    (AsRawHeader i).2.nextHdrIdentifier = 59 ∧ (AsRawHeader i).2.payload = [] ∧
    (AsRawHeader i).2.forceRaw = false ∧
    (AsRawHeader (AsRawHeader i).2).1 = ⟨59, []⟩ ∧
    ∀ n, NextN n (AsRawHeader i).2 = some (AsRawHeader i).2 ∧
      Next (AsRawHeader i).2 = some ((none, true, none), (AsRawHeader i).2) := by
  refine ⟨rfl, rfl, rfl, rfl, rfl, fun n => ?_⟩
  have hd : Next (AsRawHeader i).2 = some ((none, true, none), (AsRawHeader i).2) :=
    Next_noNextHeader _ rfl rfl
  exact ⟨NextN_done _ hd n, hd⟩

/-- C12: on a buffer `b` of 6 bytes, `FragmentOffset` is `(256*b[0] + b[1]) / 8`, `More`
holds exactly when `b[1]` is odd, and `ID` is `b[2]*2^24 + b[3]*2^16 + b[4]*2^8 + b[5]`;
a body that starts 0x00, 0x41 has `FragmentOffset` 8 and `More` set. -/
theorem C12_fragment_accessors (b : List Nat) (hlen : b.length = 6)
    (hbyte : ∀ x ∈ b, x < 256) :
    FragmentOffset b = some ((256 * b.getD 0 0 + b.getD 1 0) / 8) ∧
    More b = some (decide (b.getD 1 0 % 2 = 1)) ∧
    ID b = some (b.getD 2 0 * 2 ^ 24 + b.getD 3 0 * 2 ^ 16 + b.getD 4 0 * 2 ^ 8 + b.getD 5 0) ∧
    ∀ i0 i1 i2 i3, FragmentOffset [0x00, 0x41, i0, i1, i2, i3] = some 8 ∧
      More [0x00, 0x41, i0, i1, i2, i3] = some true := by
  match b, hlen with
  | [b0, b1, b2, b3, b4, b5], _ =>
    simp only [List.mem_cons, List.mem_singleton, forall_eq_or_imp, forall_eq,
      List.not_mem_nil, false_imp_iff, implies_true, and_true] at hbyte
    obtain ⟨h0, h1, h2, h3, h4, h5⟩ := hbyte
    refine ⟨?_, ?_, ?_, ?_⟩
    · simp only [FragmentOffset, List.drop_zero, bigEndianUint16_eq b0 b1 _ h0 h1,
        Nat.shiftRight_eq_div_pow]
      rfl
    · simp only [More, List.getElem?_cons_succ, List.getElem?_cons_zero,
        Nat.and_one_is_mod, List.getD_cons_succ, List.getD_cons_zero]
      congr 1
      rcases Nat.mod_two_eq_zero_or_one b1 with h | h <;> simp [h]
    · have hid : ID [b0, b1, b2, b3, b4, b5] = bigEndianUint32 [b2, b3, b4, b5] := by
        simp [ID, ipv6FragmentExtHdrIdentificationOffset]
      rw [hid, bigEndianUint32_eq b2 b3 b4 b5 [] h2 h3 h4 h5]
      simp
    · intro i0 i1 i2 i3
      constructor
      · simp [FragmentOffset, bigEndianUint16, ipv6FragmentExtHdrFragmentOffsetShift,
          Nat.shiftRight_eq_div_pow]
      · simp [More]

/-- C12 at the body 0x00, 0x41, 1, 2, 3, 4. -/
theorem C12_witness :
    FragmentOffset [0x00, 0x41, 1, 2, 3, 4] =
      some ((256 * [0x00, 0x41, 1, 2, 3, 4].getD 0 0 + [0x00, 0x41, 1, 2, 3, 4].getD 1 0) / 8) ∧
    More [0x00, 0x41, 1, 2, 3, 4] = some (decide ([0x00, 0x41, 1, 2, 3, 4].getD 1 0 % 2 = 1)) ∧
    ID [0x00, 0x41, 1, 2, 3, 4] =
      some ([0x00, 0x41, 1, 2, 3, 4].getD 2 0 * 2 ^ 24 + [0x00, 0x41, 1, 2, 3, 4].getD 3 0 * 2 ^ 16
        + [0x00, 0x41, 1, 2, 3, 4].getD 4 0 * 2 ^ 8 + [0x00, 0x41, 1, 2, 3, 4].getD 5 0) ∧
    ∀ i0 i1 i2 i3, FragmentOffset [0x00, 0x41, i0, i1, i2, i3] = some 8 ∧
      More [0x00, 0x41, i0, i1, i2, i3] = some true :=
  C12_fragment_accessors [0x00, 0x41, 1, 2, 3, 4] rfl (by decide)

/-- C13: for every starting identifier and payload, `MakeIPv6PayloadIterator` with
`check` set returns, with or without an error, the same iterator as without `check`: next
identifier as given, the whole payload remaining, `forceRaw` clear; so the calls of `Next`
give the same results. -/
theorem C13_validation_leaves_iterator (id : Nat) (p : List Nat) :
    (∃ err, MakeIPv6PayloadIterator id p true = some (⟨id, some p, p, false⟩, err)) ∧
    MakeIPv6PayloadIterator id p false = some (⟨id, some p, p, false⟩, none) ∧
    ∀ it1 e1 it2 e2, MakeIPv6PayloadIterator id p true = some (it1, e1) →
      MakeIPv6PayloadIterator id p false = some (it2, e2) →
        it1 = it2 ∧ it1.nextHdrIdentifier = id ∧ it1.payload = p ∧ it1.forceRaw = false ∧
        Next it1 = Next it2 ∧ ∀ n, NextN n it1 = NextN n it2 := by
  obtain ⟨n, err, _, _, hm⟩ := MakeIPv6PayloadIterator_check id p
  refine ⟨⟨err, hm⟩, rfl, ?_⟩
  intro it1 e1 it2 e2 h1 h2
  rw [MakeIPv6PayloadIterator_fst id p true it1 e1 h1,
    MakeIPv6PayloadIterator_fst id p false it2 e2 h2]
  exact ⟨rfl, rfl, rfl, rfl, rfl, fun _ => rfl⟩

/-- C13 at a truncated Fragment header, where the validation reports an error. -/
theorem C13_witness :
    MakeIPv6PayloadIterator 44 [59, 0, 0, 0] true =
      some (⟨44, some [59, 0, 0, 0], [59, 0, 0, 0], false⟩,
        some (IterError.headerData 2 6 0 44 ReadError.EOF)) ∧
    MakeIPv6PayloadIterator 44 [59, 0, 0, 0] false =
      some (⟨44, some [59, 0, 0, 0], [59, 0, 0, 0], false⟩, none) ∧
    (⟨44, some [59, 0, 0, 0], [59, 0, 0, 0], false⟩ : IPv6PayloadIterator) =
      ⟨44, some [59, 0, 0, 0], [59, 0, 0, 0], false⟩ :=
  ⟨by decide, by decide,
    ((C13_validation_leaves_iterator 44 [59, 0, 0, 0]).2.2
      ⟨44, some [59, 0, 0, 0], [59, 0, 0, 0], false⟩
      (some (IterError.headerData 2 6 0 44 ReadError.EOF))
      ⟨44, some [59, 0, 0, 0], [59, 0, 0, 0], false⟩ none (by decide) (by decide)).1⟩

/-- C14: `MakeIPv6PayloadIterator` with `check` set always returns; it returns the error
`e` exactly when the calls of `Next` on a fresh iterator over the same identifier and
payload report `e` before they report done, and no error exactly when they report done
first; without `check` it returns no error. -/
theorem C14_check_reports_first_error (id : Nat) (p : List Nat) :
    (∃ err, MakeIPv6PayloadIterator id p true = some (⟨id, some p, p, false⟩, err)) ∧
    (∀ it e, MakeIPv6PayloadIterator id p true = some (it, some e) ↔
      (it = ⟨id, some p, p, false⟩ ∧ ∃ n, StopsAt n ⟨id, some p, p, false⟩ (some e))) ∧
    (∀ it, MakeIPv6PayloadIterator id p true = some (it, none) ↔
      (it = ⟨id, some p, p, false⟩ ∧ ∃ n, StopsAt n ⟨id, some p, p, false⟩ none)) ∧
    MakeIPv6PayloadIterator id p false = some (⟨id, some p, p, false⟩, none) := by
  obtain ⟨n, err, _, hs, hm⟩ := MakeIPv6PayloadIterator_check id p
  have key : ∀ it e, MakeIPv6PayloadIterator id p true = some (it, e) ↔
      (it = ⟨id, some p, p, false⟩ ∧ ∃ k, StopsAt k ⟨id, some p, p, false⟩ e) := by
    intro it e
    constructor
    · intro h
      rw [hm] at h
      simp only [Option.some.injEq, Prod.mk.injEq] at h
      obtain ⟨rfl, rfl⟩ := h
      exact ⟨rfl, n, hs⟩
    · rintro ⟨rfl, k, hk⟩
      obtain ⟨_, rfl⟩ := StopsAt_unique k n _ _ _ hk hs
      exact hm
  exact ⟨⟨err, hm⟩, fun it e => key it (some e), fun it => key it none, rfl⟩

/-- C14 at a Routing header followed by a truncated Fragment header: the error is that
of the second call. -/
theorem C14_witness :
    (⟨43, some [44, 0, 0, 0, 0, 0, 0, 0, 59, 0, 0], [44, 0, 0, 0, 0, 0, 0, 0, 59, 0, 0], false⟩ :
      IPv6PayloadIterator) =
        ⟨43, some [44, 0, 0, 0, 0, 0, 0, 0, 59, 0, 0], [44, 0, 0, 0, 0, 0, 0, 0, 59, 0, 0], false⟩ ∧
    ∃ n, StopsAt n
      ⟨43, some [44, 0, 0, 0, 0, 0, 0, 0, 59, 0, 0], [44, 0, 0, 0, 0, 0, 0, 0, 59, 0, 0], false⟩
      (some (IterError.headerData 1 6 0 44 ReadError.EOF)) :=
  ((C14_check_reports_first_error 43 [44, 0, 0, 0, 0, 0, 0, 0, 59, 0, 0]).2.1 _ _).1
    (by decide)

/-- C15: for every starting identifier and payload of `n` bytes the constructor returns,
with or without `check`, and the calls of `Next` on the iterator report done or an error
at call `floor(n/8) + 2` at the latest; the validation loop ends within that many
calls. -/
theorem C15_terminates_within_bound (id : Nat) (p : List Nat) (check : Bool) :
    ∃ it e, MakeIPv6PayloadIterator id p check = some (it, e) ∧
      ∃ n err, n + 1 ≤ p.length / 8 + 2 ∧ StopsAt n it err ∧
        checkLoop (p.length / 8 + 2) it = some err := by
  obtain ⟨n, err, hb, hs, hm⟩ := MakeIPv6PayloadIterator_check id p
  have hc := checkLoop_of_StopsAt n ⟨id, some p, p, false⟩ err (p.length / 8 + 2) hs
    (by omega)
  cases check
  · exact ⟨_, none, rfl, n, err, hb, hs, hc⟩
  · exact ⟨_, err, hm, n, err, hb, hs, hc⟩

/-- C16: a Routing header returned by `Next` on a reachable iterator has at least 2
bytes, so `SegmentsLeft` returns; a Fragment header has exactly 6 bytes, so
`FragmentOffset`, `More` and `ID` return. -/
theorem C16_accessor_safety (i : IPv6PayloadIterator) (hi : Reachable i)
    (h : IPv6PayloadHeader) (d : Bool) (e : Option IterError) (j : IPv6PayloadIterator)
    (hn : Next i = some ((some h, d, e), j)) :
    (∀ b, h = IPv6PayloadHeader.routing b → 2 ≤ b.length ∧ ∃ s, SegmentsLeft b = some s) ∧
    (∀ b, h = IPv6PayloadHeader.fragment b →
      b.length = 6 ∧ (∃ off, FragmentOffset b = some off) ∧ (∃ m, More b = some m) ∧
        ∃ v, ID b = some v) := by
  obtain ⟨_, hr, hf⟩ := Next_header_bytes i hi.inSync h d e j hn
  constructor
  · intro b hb
    have hl := (hr b hb).1
    exact ⟨by omega, SegmentsLeft_of_length b (by omega)⟩
  · intro b hb
    have hl := (hf b hb).1
    exact ⟨hl, FragmentOffset_of_length b (by omega), More_of_length b (by omega),
      ID_of_length b (by omega)⟩

/-- C16 at the Fragment header of the payload 59, 0, 0, 0, 1, 2, 3, 4. -/
theorem C16_witness :
    [0, 0, 1, 2, 3, 4].length = 6 ∧ (∃ off, FragmentOffset [0, 0, 1, 2, 3, 4] = some off) ∧
      (∃ m, More [0, 0, 1, 2, 3, 4] = some m) ∧ ∃ v, ID [0, 0, 1, 2, 3, 4] = some v :=
  (C16_accessor_safety ⟨44, some [59, 0, 0, 0, 1, 2, 3, 4], [59, 0, 0, 0, 1, 2, 3, 4], false⟩
    (Reachable.make 44 [59, 0, 0, 0, 1, 2, 3, 4] false _ none rfl)
    (IPv6PayloadHeader.fragment [0, 0, 1, 2, 3, 4]) false none ⟨59, some [], [], false⟩
    (by decide)).2 [0, 0, 1, 2, 3, 4] rfl

/-- C17 fails for starting identifier NoNextHeader over the payload 1, 2, 3: `Next`
reports done without error and the three bytes are still in the remaining payload. -/
theorem C17_counterexample :
    MakeIPv6PayloadIterator 59 [1, 2, 3] false =
      some (⟨59, some [1, 2, 3], [1, 2, 3], false⟩, none) ∧
    Next ⟨59, some [1, 2, 3], [1, 2, 3], false⟩ =
      some ((none, true, none), ⟨59, some [1, 2, 3], [1, 2, 3], false⟩) ∧
    (⟨59, some [1, 2, 3], [1, 2, 3], false⟩ : IPv6PayloadIterator).payload ≠ [] := by
  decide

/-- C17, amended: when a call of `Next` on a reachable iterator reports done without
error, it returns no header, leaves the iterator unchanged, and the iterator has next
identifier NoNextHeader and `forceRaw` clear; the remaining payload is empty after a raw
header, which also leaves next identifier NoNextHeader so that the next call reports
done. -/
theorem C17_done_state (i : IPv6PayloadIterator) (hi : Reachable i) :
    (∀ h j, Next i = some ((h, true, none), j) →
      h = none ∧ j = i ∧ j.nextHdrIdentifier = 59 ∧ j.forceRaw = false) ∧
    (∀ r d e j, Next i = some ((some (IPv6PayloadHeader.raw r), d, e), j) →
      j.nextHdrIdentifier = 59 ∧ j.payload = [] ∧ j.forceRaw = false ∧
        Next j = some ((none, true, none), j)) := by
  constructor
  · intro h j hn
    rcases Next_cases i hi.inSync with ⟨_, hc⟩ | ⟨hf, hid, hc⟩ | ⟨_, _, _, e, hc⟩ |
        ⟨_, _, a, l, rest, _, _, hc⟩ | ⟨_, _, a, l, rest, m, off, _, _, _, _, hc⟩ <;>
      rw [hc] at hn <;>
      simp only [Option.some.injEq, Prod.mk.injEq, and_true, true_and, reduceCtorEq,
        false_and, and_false, Bool.false_eq_true] at hn
    obtain ⟨rfl, rfl⟩ := hn
    exact ⟨rfl, rfl, hid, hf⟩
  · intro r d e j hn
    obtain ⟨hraw, _, _⟩ := Next_header_bytes i hi.inSync _ d e j hn
    obtain ⟨_, rfl⟩ := hraw r rfl
    exact ⟨rfl, rfl, rfl, Next_noNextHeader _ rfl rfl⟩

/-- C17, amended, at starting identifier NoNextHeader over the payload 1, 2, 3. -/
theorem C17_witness :
    (none : Option IPv6PayloadHeader) = none ∧
    (⟨59, some [1, 2, 3], [1, 2, 3], false⟩ : IPv6PayloadIterator) =
      ⟨59, some [1, 2, 3], [1, 2, 3], false⟩ ∧
    (⟨59, some [1, 2, 3], [1, 2, 3], false⟩ : IPv6PayloadIterator).nextHdrIdentifier = 59 ∧
    (⟨59, some [1, 2, 3], [1, 2, 3], false⟩ : IPv6PayloadIterator).forceRaw = false :=
  (C17_done_state ⟨59, some [1, 2, 3], [1, 2, 3], false⟩
    (Reachable.make 59 [1, 2, 3] false _ none rfl)).1 none
    ⟨59, some [1, 2, 3], [1, 2, 3], false⟩ (by decide)

/-- C18: at every point of a sequence of calls of `Next` and `AsRawHeader` on an iterator
built over a payload, the remaining payload is a suffix of that payload; so is the `Buf`
of a raw header returned by `AsRawHeader` or `Next`, and the bytes of a Routing or
Fragment header returned by `Next` are a contiguous slice of it. -/
theorem C18_payload_is_suffix (id : Nat) (p : List Nat) (i : IPv6PayloadIterator)
    (hi : ReachableFrom id p i) :
    i.payload <:+ p ∧ (AsRawHeader i).1.Buf <:+ p ∧
    ∀ h d e j, Next i = some ((some h, d, e), j) →
      (∀ r, h = IPv6PayloadHeader.raw r → r.Buf <:+ p) ∧
      (∀ b, h = IPv6PayloadHeader.routing b → b <:+: p) ∧
      (∀ b, h = IPv6PayloadHeader.fragment b → b <:+: p) := by
  obtain ⟨hs, hsuf⟩ := hi.inv
  refine ⟨hsuf, hsuf, ?_⟩
  intro h d e j hn
  obtain ⟨hraw, hr, hf⟩ := Next_header_bytes i hs h d e j hn
  refine ⟨?_, ?_, ?_⟩
  · intro r hr2
    rw [(hraw r hr2).1]
    exact hsuf
  · intro b hb
    obtain ⟨_, pre, _, hp⟩ := hr b hb
    exact List.IsInfix.trans ⟨pre, j.payload, hp.symm⟩ hsuf.isInfix
  · intro b hb
    obtain ⟨_, pre, _, hp⟩ := hf b hb
    exact List.IsInfix.trans ⟨pre, j.payload, hp.symm⟩ hsuf.isInfix

/-- C18 after one Routing header of a 17-byte payload. -/
theorem C18_witness :
    [1, 2, 3, 4, 5, 6, 7, 8, 9] <:+ [43, 0, 9, 9, 9, 9, 9, 9, 1, 2, 3, 4, 5, 6, 7, 8, 9] :=
  (C18_payload_is_suffix 43 [43, 0, 9, 9, 9, 9, 9, 9, 1, 2, 3, 4, 5, 6, 7, 8, 9]
    ⟨43, some [1, 2, 3, 4, 5, 6, 7, 8, 9], [1, 2, 3, 4, 5, 6, 7, 8, 9], false⟩
    (ReachableFrom.next
      ⟨43, some [43, 0, 9, 9, 9, 9, 9, 9, 1, 2, 3, 4, 5, 6, 7, 8, 9],
        [43, 0, 9, 9, 9, 9, 9, 9, 1, 2, 3, 4, 5, 6, 7, 8, 9], false⟩
      (some (IPv6PayloadHeader.routing [9, 9, 9, 9, 9, 9]), false, none) _
      (ReachableFrom.make false _ none rfl) (by decide))).1

/-- C19: when `Next` returns an error on an iterator whose reader and payload are in
sync, as they are in every reachable iterator, the remaining payload is empty afterwards,
the next identifier is unchanged and is Routing or Fragment, `forceRaw` is clear, and
every later call of `Next` returns an error again and leaves the iterator as it is. -/
theorem C19_errors_are_sticky (i : IPv6PayloadIterator) (hs : InSync i)
    (h : Option IPv6PayloadHeader) (d : Bool) (e : IterError) (j : IPv6PayloadIterator)
    (hn : Next i = some ((h, d, some e), j)) :
    j.payload = [] ∧ j.nextHdrIdentifier = i.nextHdrIdentifier ∧
    (j.nextHdrIdentifier = 43 ∨ j.nextHdrIdentifier = 44) ∧ j.forceRaw = false ∧
    ∀ n, NextN n j = some j ∧
      Next j = some ((none, true,
        some (IterError.nextHeaderField j.nextHdrIdentifier ReadError.EOF)), j) := by
  rcases Next_cases i hs with ⟨_, hc⟩ | ⟨_, _, hc⟩ | ⟨_, hid, _, e2, hc⟩ |
      ⟨_, _, a, l, rest, _, _, hc⟩ | ⟨_, _, a, l, rest, m, off, _, _, _, _, hc⟩ <;>
    rw [hc] at hn <;>
    simp only [Option.some.injEq, Prod.mk.injEq, and_true, true_and, reduceCtorEq,
      false_and, and_false] at hn
  obtain ⟨_, rfl⟩ := hn
  have hnext : Next ⟨i.nextHdrIdentifier, some [], [], false⟩ =
      some ((none, true, some (IterError.nextHeaderField i.nextHdrIdentifier ReadError.EOF)),
        ⟨i.nextHdrIdentifier, some [], [], false⟩) :=
    Next_ext_nil ⟨i.nextHdrIdentifier, some [], [], false⟩ rfl hid rfl
  refine ⟨rfl, rfl, hid, rfl, fun n => ⟨?_, hnext⟩⟩
  induction n with
  | zero => rfl
  | succ k ih => simp only [NextN, hnext]; exact ih

/-- C19 at a Routing header of Length 1 cut short after three data bytes. -/
theorem C19_witness :
    (⟨43, some [], [], false⟩ : IPv6PayloadIterator).payload = [] ∧
    (⟨43, some [], [], false⟩ : IPv6PayloadIterator).nextHdrIdentifier = 43 ∧
    ((⟨43, some [], [], false⟩ : IPv6PayloadIterator).nextHdrIdentifier = 43 ∨
      (⟨43, some [], [], false⟩ : IPv6PayloadIterator).nextHdrIdentifier = 44) ∧
    (⟨43, some [], [], false⟩ : IPv6PayloadIterator).forceRaw = false ∧
    ∀ n, NextN n ⟨43, some [], [], false⟩ = some ⟨43, some [], [], false⟩ ∧
      Next ⟨43, some [], [], false⟩ = some ((none, true,
        some (IterError.nextHeaderField 43 ReadError.EOF)), ⟨43, some [], [], false⟩) :=
  C19_errors_are_sticky ⟨43, some [59, 1, 0, 0, 0], [59, 1, 0, 0, 0], false⟩ (Or.inl rfl)
    none true (IterError.headerData 3 14 1 43 ReadError.EOF) ⟨43, some [], [], false⟩
    (by decide)

/-- C20: for every next identifier, payload and `forceRaw`, `Next` returns whatever the
position of the reader; with a nil reader it fails exactly when the structured decode is
reached, which is the read on the nil reader and not the second switch; and on every
iterator reached by calls of `Next` and `AsRawHeader` it returns. -/
theorem C20_next_never_panics (id : Nat) (p : List Nat) (forceRaw : Bool) :
    (∀ r, ∃ res j, Next ⟨id, some r, p, forceRaw⟩ = some (res, j)) ∧
    (Next ⟨id, none, p, forceRaw⟩ = none ↔ (forceRaw = false ∧ (id = 43 ∨ id = 44))) ∧
    (∀ id0 p0 i, ReachableFrom id0 p0 i → ∃ res j, Next i = some (res, j)) := by
  refine ⟨fun r => Next_of_reader _ r rfl, ?_, fun id0 p0 i hi => Next_of_inSync i hi.inv.1⟩
  cases forceRaw with
  | true => simp [Next_forceRaw]
  | false =>
    by_cases h43 : id = 43
    · subst h43
      simp [Next, nextHeaderData]
    by_cases h44 : id = 44
    · subst h44
      simp [Next, nextHeaderData]
    by_cases h59 : id = 59
    · simp [Next_noNextHeader ⟨id, none, p, false⟩ rfl h59, h43, h44]
    · simp [Next_unrecognized ⟨id, none, p, false⟩ rfl h43 h44 h59, h43, h44]

/-- C20 at the iterator left by `AsRawHeader`, whose reader is nil. -/
theorem C20_witness :
    ∃ res j, Next ⟨59, none, [], false⟩ = some (res, j) :=
  (C20_next_never_panics 0 [] false).2.2 17 [1, 2] ⟨59, none, [], false⟩
    (ReachableFrom.asRawHeader ⟨17, some [1, 2], [1, 2], false⟩
      (ReachableFrom.make false _ none rfl))

end IPv6
